import Mathlib

/-!
# mineskin-overlay: the compositor, the cache key and the request handler

A shallow embedding of `api/index.go`.  The repository's own code (`Handler`,
`getRedisKey`, `hashString`, `fetchImage`, `base64ToPNG`) is translated
function by function.  The Go standard library calls it makes (`image/color`,
`image`, `image/draw`, `encoding/base64`, `crypto/sha256`, `net/http`) are
embedded by their documented behaviour on the values this program hands them.

Machine integers are natural numbers; a `uint8` is a `Fin 256`, a `uint16` a
`Fin 65536`, and `uint32` arithmetic is reduced modulo `2 ^ 32` where Go does.
A Go `string` or `[]byte` is a list of bytes.
-/

set_option linter.dupNamespace false
set_option maxRecDepth 100000

namespace MineskinOverlay

/-! ## Machine integers -/

/-- Go `uint8`. -/
abbrev Byte := Fin 256

/-- Go `uint16`. -/
abbrev Word16 := Fin 65536

/-- Conversion `uint8(n)` of an unsigned value: the low eight bits. -/
def uint8 (n : Nat) : Byte := ⟨n % 256, Nat.mod_lt n (by decide)⟩

/-- Conversion `uint16(n)` of an unsigned value: the low sixteen bits. -/
def uint16 (n : Nat) : Word16 := ⟨n % 65536, Nat.mod_lt n (by decide)⟩

/-- Result of a `uint32` operation: the value modulo `2 ^ 32`. -/
def u32 (n : Nat) : Nat := n % 4294967296

/-! ## Package `image/color` -/

/-- Type `color.RGBA`: alpha-premultiplied, eight bits a channel. -/
structure RGBA where
  R : Byte
  G : Byte
  B : Byte
  A : Byte
  deriving DecidableEq, Repr

/-- Type `color.NRGBA`: non-alpha-premultiplied, eight bits a channel. -/
structure NRGBA where
  R : Byte
  G : Byte
  B : Byte
  A : Byte
  deriving DecidableEq, Repr

/-- Type `color.RGBA64`: alpha-premultiplied, sixteen bits a channel. -/
structure RGBA64 where
  R : Word16
  G : Word16
  B : Word16
  A : Word16
  deriving DecidableEq, Repr

/-- Type `color.NRGBA64`: non-alpha-premultiplied, sixteen bits a channel. -/
structure NRGBA64 where
  R : Word16
  G : Word16
  B : Word16
  A : Word16
  deriving DecidableEq, Repr

/-- The four `uint32` results of a `Color.RGBA()` call. -/
structure Quad where
  r : Nat
  g : Nat
  b : Nat
  a : Nat
  deriving DecidableEq, Repr

/-- The implementations of interface `color.Color` this program meets. -/
inductive Color where
  | rgba (c : RGBA)
  | nrgba (c : NRGBA)
  | rgba64 (c : RGBA64)
  | nrgba64 (c : NRGBA64)
  | gray (y : Byte)
  | gray16 (y : Word16)
  | alpha16 (a : Word16)
  deriving DecidableEq, Repr

/-- Method `color.RGBA.RGBA`: `r = uint32(c.R); r |= r << 8`, and so on. -/
def RGBA.RGBA (c : RGBA) : Quad :=
  ⟨c.R.val ||| (c.R.val <<< 8), c.G.val ||| (c.G.val <<< 8),
   c.B.val ||| (c.B.val <<< 8), c.A.val ||| (c.A.val <<< 8)⟩

/-- Method `color.NRGBA.RGBA`: widen to sixteen bits, multiply by alpha,
divide by `0xff`. -/
def NRGBA.RGBA (c : NRGBA) : Quad :=
  ⟨u32 ((c.R.val ||| (c.R.val <<< 8)) * c.A.val) / 0xff,
   u32 ((c.G.val ||| (c.G.val <<< 8)) * c.A.val) / 0xff,
   u32 ((c.B.val ||| (c.B.val <<< 8)) * c.A.val) / 0xff,
   c.A.val ||| (c.A.val <<< 8)⟩

/-- Method `color.RGBA64.RGBA`. -/
def RGBA64.RGBA (c : RGBA64) : Quad := ⟨c.R.val, c.G.val, c.B.val, c.A.val⟩

/-- Method `color.NRGBA64.RGBA`: multiply by alpha, divide by `0xffff`. -/
def NRGBA64.RGBA (c : NRGBA64) : Quad :=
  ⟨u32 (c.R.val * c.A.val) / 0xffff, u32 (c.G.val * c.A.val) / 0xffff,
   u32 (c.B.val * c.A.val) / 0xffff, c.A.val⟩

/-- Method `Color.RGBA`, dispatched on the dynamic type. -/
def Color.RGBA : Color → Quad
  | .rgba c => c.RGBA
  | .nrgba c => c.RGBA
  | .rgba64 c => c.RGBA
  | .nrgba64 c => c.RGBA
  | .gray y => ⟨y.val ||| (y.val <<< 8), y.val ||| (y.val <<< 8), y.val ||| (y.val <<< 8), 0xffff⟩
  | .gray16 y => ⟨y.val, y.val, y.val, 0xffff⟩
  | .alpha16 a => ⟨a.val, a.val, a.val, a.val⟩

/-- Function `rgbaModel` behind `color.RGBAModel.Convert`: a `color.RGBA` is
returned as it is, any other colour keeps the high byte of each channel. -/
def rgbaModel : Color → RGBA
  | .rgba c => c
  | c => ⟨uint8 (c.RGBA.r >>> 8), uint8 (c.RGBA.g >>> 8), uint8 (c.RGBA.b >>> 8),
          uint8 (c.RGBA.a >>> 8)⟩

/-- Function `nrgbaModel` behind `color.NRGBAModel.Convert`, at a
`color.RGBA`: the straight (non-alpha-premultiplied) colour of a stored pixel.
The PNG encoder writes exactly these bytes for an `*image.RGBA` pixel. -/
def nrgbaModel (c : RGBA) : NRGBA :=
  let q := c.RGBA
  if q.a = 0xffff then ⟨uint8 (q.r >>> 8), uint8 (q.g >>> 8), uint8 (q.b >>> 8), 0xff⟩
  else if q.a = 0 then ⟨0, 0, 0, 0⟩
  else ⟨uint8 ((u32 (q.r * 0xffff) / q.a) >>> 8), uint8 ((u32 (q.g * 0xffff) / q.a) >>> 8),
        uint8 ((u32 (q.b * 0xffff) / q.a) >>> 8), uint8 (q.a >>> 8)⟩

/-- Variable `color.Transparent`: `Alpha16{0}`. -/
def Transparent : Color := .alpha16 0

/-! ## Package `image`

Every image of this program comes out of `png.Decode`, whose rectangle starts
at the origin, or out of `image.NewRGBA` on such a rectangle.  A rectangle is
therefore a width and a height, and pixel data a function of the coordinates.
-/

/-- An `*image.RGBA`: rectangle `(0,0)-(w,h)` and its pixels. -/
structure RGBAImage where
  w : Nat
  h : Nat
  pix : Nat → Nat → RGBA

/-- Function `image.NewRGBA`: every byte of `Pix` is zero. -/
def NewRGBA (w h : Nat) : RGBAImage := ⟨w, h, fun _ _ => ⟨0, 0, 0, 0⟩⟩

/-- Method `(*image.RGBA).RGBAAt`, also `At`: the zero colour outside the
rectangle. -/
def RGBAImage.At (p : RGBAImage) (x y : Nat) : RGBA :=
  if x < p.w ∧ y < p.h then p.pix x y else ⟨0, 0, 0, 0⟩

/-- Method `(*image.RGBA).Set`: nothing outside the rectangle, else the colour
converted by `color.RGBAModel` is stored. -/
def RGBAImage.Set (p : RGBAImage) (x y : Nat) (c : Color) : RGBAImage :=
  if x < p.w ∧ y < p.h then
    { p with pix := fun i j => if i = x ∧ j = y then rgbaModel c else p.pix i j }
  else p

/-- What `png.Decode` returns.  One constructor for each Go image type the
decoder allocates; the colour type of the PNG decides which:

* `gray`: `*image.Gray`, greyscale of depth 1 to 8 without a `tRNS` chunk;
* `gray16`: `*image.Gray16`, greyscale of depth 16 without `tRNS`;
* `rgba`: `*image.RGBA`, 8-bit truecolour without `tRNS`; the decoder writes
  `0xff` into every alpha byte, so only red, green and blue are data;
* `rgba64`: `*image.RGBA64`, 16-bit truecolour without `tRNS`, alpha `0xffff`;
* `nrgba`: `*image.NRGBA`, 8-bit with an alpha channel or a `tRNS` chunk;
* `nrgba64`: `*image.NRGBA64`, 16-bit with an alpha channel or `tRNS`;
* `paletted`: `*image.Paletted`; a palette entry is `color.RGBA` with alpha
  `0xff`, or `color.NRGBA` when `tRNS` names it, and `color.NRGBA` covers both
  since the two agree on `RGBA()` at alpha `0xff`. -/
inductive Image where
  | gray (w h : Nat) (pix : Nat → Nat → Byte)
  | gray16 (w h : Nat) (pix : Nat → Nat → Word16)
  | rgba (w h : Nat) (pix : Nat → Nat → Byte × Byte × Byte)
  | rgba64 (w h : Nat) (pix : Nat → Nat → Word16 × Word16 × Word16)
  | nrgba (w h : Nat) (pix : Nat → Nat → NRGBA)
  | nrgba64 (w h : Nat) (pix : Nat → Nat → NRGBA64)
  | paletted (w h : Nat) (palette : Byte → NRGBA) (pix : Nat → Nat → Byte)

/-- Width of `Bounds()`. -/
def Image.w : Image → Nat
  | .gray w _ _ | .gray16 w _ _ | .rgba w _ _ | .rgba64 w _ _ | .nrgba w _ _
  | .nrgba64 w _ _ | .paletted w _ _ _ => w

/-- Height of `Bounds()`. -/
def Image.h : Image → Nat
  | .gray _ h _ | .gray16 _ h _ | .rgba _ h _ | .rgba64 _ h _ | .nrgba _ h _
  | .nrgba64 _ h _ | .paletted _ h _ _ => h

/-- Method `Image.At` at a point inside the rectangle. -/
def Image.At : Image → Nat → Nat → Color
  | .gray _ _ pix, x, y => .gray (pix x y)
  | .gray16 _ _ pix, x, y => .gray16 (pix x y)
  | .rgba _ _ pix, x, y => .rgba ⟨(pix x y).1, (pix x y).2.1, (pix x y).2.2, 0xff⟩
  | .rgba64 _ _ pix, x, y => .rgba64 ⟨(pix x y).1, (pix x y).2.1, (pix x y).2.2, 0xffff⟩
  | .nrgba _ _ pix, x, y => .nrgba (pix x y)
  | .nrgba64 _ _ pix, x, y => .nrgba64 (pix x y)
  | .paletted _ _ palette pix, x, y => .nrgba (palette (pix x y))

/-! ## Package `image/draw`, operator `Over` onto an `*image.RGBA` -/

/-- Constant `m = 1<<16 - 1` of `draw.go`. -/
def m : Nat := 65535

/-- Loop body of `drawCopyOver` (source `*image.RGBA`).  `sa` is at most `m`, so
`m - sa` does not wrap. -/
def drawCopyOver (d s : RGBA) : RGBA :=
  let sr := s.R.val * 0x101
  let sg := s.G.val * 0x101
  let sb := s.B.val * 0x101
  let sa := s.A.val * 0x101
  let a := u32 ((m - sa) * 0x101)
  ⟨uint8 (u32 (u32 (d.R.val * a) / m + sr) >>> 8),
   uint8 (u32 (u32 (d.G.val * a) / m + sg) >>> 8),
   uint8 (u32 (u32 (d.B.val * a) / m + sb) >>> 8),
   uint8 (u32 (u32 (d.A.val * a) / m + sa) >>> 8)⟩

/-- Loop body of `drawNRGBAOver` (source `*image.NRGBA`): the source is
premultiplied first. -/
def drawNRGBAOver (d : RGBA) (s : NRGBA) : RGBA :=
  let sa := s.A.val * 0x101
  let sr := u32 (s.R.val * sa) / 0xff
  let sg := u32 (s.G.val * sa) / 0xff
  let sb := u32 (s.B.val * sa) / 0xff
  let a := u32 ((m - sa) * 0x101)
  ⟨uint8 (u32 (u32 (d.R.val * a) / m + sr) >>> 8),
   uint8 (u32 (u32 (d.G.val * a) / m + sg) >>> 8),
   uint8 (u32 (u32 (d.B.val * a) / m + sb) >>> 8),
   uint8 (u32 (u32 (d.A.val * a) / m + sa) >>> 8)⟩

/-- Loop body of `drawGray` (source `*image.Gray`): the grey level is copied
into the three colour bytes and alpha becomes `0xff`. -/
def drawGray (y : Byte) : RGBA := ⟨y, y, y, 0xff⟩

/-- Loop body of `drawRGBA`, the general path, with no mask (`ma = m`) and
operator `Over`; `s` is `src.At(sx, sy).RGBA()`, whose channels are at most
`0xffff`, so that `m - sa*ma/m` does not wrap. -/
def drawRGBA (d : RGBA) (s : Quad) : RGBA :=
  let ma := m
  let a := u32 ((m - u32 (s.a * ma) / m) * 0x101)
  ⟨uint8 ((u32 (d.R.val * a + s.r * ma) / m) >>> 8),
   uint8 ((u32 (d.G.val * a + s.g * ma) / m) >>> 8),
   uint8 ((u32 (d.B.val * a + s.b * ma) / m) >>> 8),
   uint8 ((u32 (d.A.val * a + s.a * ma) / m) >>> 8)⟩

/-- The type switch of `draw.DrawMask` for destination `*image.RGBA`, operator
`Over`, nil mask: the new destination pixel at a point of the source. -/
def drawOverAt (src : Image) (x y : Nat) (d : RGBA) : RGBA :=
  match src with
  | .rgba _ _ pix => drawCopyOver d ⟨(pix x y).1, (pix x y).2.1, (pix x y).2.2, 0xff⟩
  | .nrgba _ _ pix => drawNRGBAOver d (pix x y)
  | .gray _ _ pix => drawGray (pix x y)
  | img => drawRGBA d (img.At x y).RGBA

/-- Call `draw.Draw(dst, r, src, image.Point{}, draw.Over)` with `r` the
rectangle `(0,0)-(rw,rh)`: `clip` intersects `r` with the bounds of `dst` and
of `src`, and every pixel of what is left is blended; the rest of `dst` stays. -/
def Draw (dst : RGBAImage) (rw rh : Nat) (src : Image) : RGBAImage :=
  { dst with
    pix := fun x y =>
      if x < min (min rw dst.w) src.w ∧ y < min (min rh dst.h) src.h then
        drawOverAt src x y (dst.pix x y)
      else dst.pix x y }

/-! ## `Handler`, lines 71 to 89: the compositor -/

/-- Lines 71 to 76: the transparent canvas of the base's bounds, the base drawn
over it, the overlay drawn over that. -/
def blend (baseImg overlayImg : Image) : RGBAImage :=
  let composite := NewRGBA baseImg.w baseImg.h
  let composite := Draw composite baseImg.w baseImg.h baseImg
  Draw composite baseImg.w baseImg.h overlayImg

/-- Lines 80 to 87, the body of the inner loop at `(x, y)`. -/
def scanPixel (composite : RGBAImage) (x y : Nat) : RGBAImage :=
  let q := (composite.At x y).RGBA
  let r8 := uint8 (q.r >>> 8)
  let g8 := uint8 (q.g >>> 8)
  let b8 := uint8 (q.b >>> 8)
  if r8 = 0 ∧ g8 = 0 ∧ b8 = 254 then composite.Set x y Transparent else composite

/-- Lines 79 to 88, the inner loop `for x := bounds.Min.X; x < bounds.Max.X`. -/
def scanRow (w : Nat) (composite : RGBAImage) (y : Nat) : RGBAImage :=
  (List.range w).foldl (fun c x => scanPixel c x y) composite

/-- Lines 78 to 89, the outer loop `for y := bounds.Min.Y; y < bounds.Max.Y`. -/
def chromaScan (w h : Nat) (composite : RGBAImage) : RGBAImage :=
  (List.range h).foldl (scanRow w) composite

/-- Lines 71 to 89: the composite that is handed to `png.Encode`. -/
def composite (baseImg overlayImg : Image) : RGBAImage :=
  chromaScan baseImg.w baseImg.h (blend baseImg overlayImg)

/-! ## Strings

A Go `string` is an immutable sequence of bytes, not necessarily UTF-8. -/

/-- Go `string`, also `[]byte`. -/
abbrev GoString := List Byte

/-- The bytes of an ASCII string literal of the source. -/
def lit (s : String) : GoString := s.toList.map (fun c => uint8 c.toNat)

/-! ## Package `crypto/sha256` -/

/-- Function `bits.RotateLeft32(x, -n)`: a 32-bit word rotated right by `n`. -/
def rotr (x n : Nat) : Nat := u32 ((x >>> n) ||| (x <<< (32 - n)))

/-- Table `_K` of `sha256block.go`. -/
def sha256K : List Nat :=
  [0x428a2f98, 0x71374491, 0xb5c0fbcf, 0xe9b5dba5, 0x3956c25b, 0x59f111f1, 0x923f82a4, 0xab1c5ed5,
   0xd807aa98, 0x12835b01, 0x243185be, 0x550c7dc3, 0x72be5d74, 0x80deb1fe, 0x9bdc06a7, 0xc19bf174,
   0xe49b69c1, 0xefbe4786, 0x0fc19dc6, 0x240ca1cc, 0x2de92c6f, 0x4a7484aa, 0x5cb0a9dc, 0x76f988da,
   0x983e5152, 0xa831c66d, 0xb00327c8, 0xbf597fc7, 0xc6e00bf3, 0xd5a79147, 0x06ca6351, 0x14292967,
   0x27b70a85, 0x2e1b2138, 0x4d2c6dfc, 0x53380d13, 0x650a7354, 0x766a0abb, 0x81c2c92e, 0x92722c85,
   0xa2bfe8a1, 0xa81a664b, 0xc24b8b70, 0xc76c51a3, 0xd192e819, 0xd6990624, 0xf40e3585, 0x106aa070,
   0x19a4c116, 0x1e376c08, 0x2748774c, 0x34b0bcb5, 0x391c0cb3, 0x4ed8aa4a, 0x5b9cca4f, 0x682e6ff3,
   0x748f82ee, 0x78a5636f, 0x84c87814, 0x8cc70208, 0x90befffa, 0xa4506ceb, 0xbef9a3f7, 0xc67178f2]

/-- The chaining value `h[0]` to `h[7]` of a `digest`, also the working
variables `a` to `h` of a block. -/
structure Digest where
  h0 : Nat
  h1 : Nat
  h2 : Nat
  h3 : Nat
  h4 : Nat
  h5 : Nat
  h6 : Nat
  h7 : Nat
  deriving DecidableEq, Repr

/-- Method `(*digest).Reset`: the initial chaining value of SHA-256. -/
def sha256Init : Digest :=
  ⟨0x6a09e667, 0xbb67ae85, 0x3c6ef372, 0xa54ff53a, 0x510e527f, 0x9b05688c, 0x1f83d9ab, 0x5be0cd19⟩

/-- First loop of `blockGeneric`: word `i` of the block, big-endian. -/
def blockWord (p : List Byte) (i : Nat) : Nat :=
  ((p.getD (4 * i) 0).val <<< 24) ||| ((p.getD (4 * i + 1) 0).val <<< 16) |||
    ((p.getD (4 * i + 2) 0).val <<< 8) ||| (p.getD (4 * i + 3) 0).val

/-- Second loop of `blockGeneric`, body at index `i`, appending `w[i]`. -/
def scheduleStep (w : List Nat) (i : Nat) : List Nat :=
  let v1 := w.getD (i - 2) 0
  let t1 := (rotr v1 17) ^^^ (rotr v1 19) ^^^ (v1 >>> 10)
  let v2 := w.getD (i - 15) 0
  let t2 := (rotr v2 7) ^^^ (rotr v2 18) ^^^ (v2 >>> 3)
  w ++ [u32 (t1 + w.getD (i - 7) 0 + t2 + w.getD (i - 16) 0)]

/-- The message schedule `w[0..63]` of one block. -/
def schedule (p : List Byte) : List Nat :=
  (List.range' 16 48).foldl scheduleStep ((List.range 16).map (blockWord p))

/-- Third loop of `blockGeneric`, body at index `i`: one round. -/
def round (w : List Nat) (s : Digest) (i : Nat) : Digest :=
  let t1 := u32 (s.h7 + ((rotr s.h4 6) ^^^ (rotr s.h4 11) ^^^ (rotr s.h4 25)) +
    ((s.h4 &&& s.h5) ^^^ ((s.h4 ^^^ 0xffffffff) &&& s.h6)) + sha256K.getD i 0 + w.getD i 0)
  let t2 := u32 (((rotr s.h0 2) ^^^ (rotr s.h0 13) ^^^ (rotr s.h0 22)) +
    ((s.h0 &&& s.h1) ^^^ (s.h0 &&& s.h2) ^^^ (s.h1 &&& s.h2)))
  ⟨u32 (t1 + t2), s.h0, s.h1, s.h2, u32 (s.h3 + t1), s.h4, s.h5, s.h6⟩

/-- Function `blockGeneric` on one 64-byte chunk. -/
def block (dig : Digest) (p : List Byte) : Digest :=
  let s := (List.range 64).foldl (round (schedule p)) dig
  ⟨u32 (dig.h0 + s.h0), u32 (dig.h1 + s.h1), u32 (dig.h2 + s.h2), u32 (dig.h3 + s.h3),
   u32 (dig.h4 + s.h4), u32 (dig.h5 + s.h5), u32 (dig.h6 + s.h6), u32 (dig.h7 + s.h7)⟩

/-- Function `binary.BigEndian.PutUint64`. -/
def putUint64 (v : Nat) : List Byte :=
  [uint8 (v >>> 56), uint8 (v >>> 48), uint8 (v >>> 40), uint8 (v >>> 32),
   uint8 (v >>> 24), uint8 (v >>> 16), uint8 (v >>> 8), uint8 v]

/-- Function `binary.BigEndian.PutUint32`. -/
def putUint32 (v : Nat) : List Byte :=
  [uint8 (v >>> 24), uint8 (v >>> 16), uint8 (v >>> 8), uint8 v]

/-- The padding `checkSum` writes after a message of `len` bytes: `0x80`, zeros
up to 56 modulo 64, then the length in bits as a `uint64`. -/
def padding (len : Nat) : List Byte :=
  let t := if len % 64 < 56 then 56 - len % 64 else 64 + 56 - len % 64
  (uint8 0x80 :: List.replicate (t - 1) 0) ++ putUint64 ((len <<< 3) % 18446744073709551616)

/-- Calls `sha256.New()`, `Write(data)`, `Sum(nil)`: the 32-byte SHA-256 digest. -/
def sha256Sum (data : List Byte) : List Byte :=
  let p := data ++ padding data.length
  let d := (List.range (p.length / 64)).foldl (fun dig i => block dig (p.drop (64 * i))) sha256Init
  putUint32 d.h0 ++ putUint32 d.h1 ++ putUint32 d.h2 ++ putUint32 d.h3 ++
    putUint32 d.h4 ++ putUint32 d.h5 ++ putUint32 d.h6 ++ putUint32 d.h7

/-! ## Package `encoding/base64` -/

/-- Constant `encodeStd`, the alphabet of `base64.StdEncoding`. -/
def encodeStd : GoString :=
  lit "ABCDEFGHIJKLMNOPQRSTUVWXYZabcdefghijklmnopqrstuvwxyz0123456789+/"

/-- Constant `StdPadding`, the byte `=`. -/
def StdPadding : Byte := 61

/-- Method `(*Encoding).EncodeToString` of `base64.StdEncoding`: three bytes
make four characters, and a remainder of one or two bytes is padded. -/
def EncodeToString : List Byte → GoString
  | a :: b :: c :: rest =>
    let val := (a.val <<< 16) ||| (b.val <<< 8) ||| c.val
    encodeStd.getD ((val >>> 18) &&& 0x3F) 0 :: encodeStd.getD ((val >>> 12) &&& 0x3F) 0 ::
      encodeStd.getD ((val >>> 6) &&& 0x3F) 0 :: encodeStd.getD (val &&& 0x3F) 0 ::
      EncodeToString rest
  | [a, b] =>
    let val := (a.val <<< 16) ||| (b.val <<< 8)
    [encodeStd.getD ((val >>> 18) &&& 0x3F) 0, encodeStd.getD ((val >>> 12) &&& 0x3F) 0,
     encodeStd.getD ((val >>> 6) &&& 0x3F) 0, StdPadding]
  | [a] =>
    let val := a.val <<< 16
    [encodeStd.getD ((val >>> 18) &&& 0x3F) 0, encodeStd.getD ((val >>> 12) &&& 0x3F) 0,
     StdPadding, StdPadding]
  | [] => []

/-! ## `getRedisKey` and `hashString` -/

/-- Function `hashString`, lines 157 to 165.  The slice `encoded[:16]` panics
when `encoded` is shorter than 16 bytes; `none` stands for that panic. -/
def hashString (input : GoString) : Option GoString :=
  let hash := sha256Sum input
  let encoded := EncodeToString hash
  if 16 ≤ encoded.length then some (encoded.take 16) else none

/-- The operand of `hashString` at line 154: `baseURL + ":" + overlayStr`. -/
def redisKeyInput (baseURL overlayStr : GoString) : GoString :=
  baseURL ++ lit ":" ++ overlayStr

/-- Function `getRedisKey`, lines 153 to 155. -/
def getRedisKey (baseURL overlayStr : GoString) : Option GoString :=
  hashString (redisKeyInput baseURL overlayStr)

/-! ## Package `strings` -/

/-- Function `strings.HasPrefix`. -/
def HasPrefix (s pre : GoString) : Bool := pre.isPrefixOf s

/-- Function `strings.TrimPrefix`. -/
def TrimPrefix (s pre : GoString) : GoString :=
  if HasPrefix s pre then s.drop pre.length else s

/-! ## The outside world of one request

`Handler` talks to four collaborators: the HTTP server that hands it the
request and takes the response, the Redis server, the host of the base image
and the MineSkin upload API.  What they answer is data of the model; the PNG
codec and the base64 decoder of the standard library are taken the same way.
The process environment and the URL parser of go-redis belong to the process
rather than to one request. -/

/-- What `client.Get(url)` of `fetchImage` returns on success, as far as the
program reads it: the `Content-Type` header and the body. -/
structure ImageResponse where
  ContentType : GoString
  Body : GoString

/-- What `client.Do(req)` of `Handler` returns on success, as far as the
program reads it: the status code and the result of `io.ReadAll(resp.Body)`. -/
structure UploadResponse where
  StatusCode : Nat
  Body : Except GoString GoString

/-- The answers of the collaborators during one request.  An `Except.error`
carries the text of the Go `error`. -/
structure World where
  /-- A failure of the Redis `GET` command other than a missing key. -/
  getErr : Option GoString
  /-- A failure of the Redis `SET` command. -/
  setErr : Option GoString
  /-- Call `client.Get(url)` with the 10 second timeout, line 172. -/
  httpGet : GoString → Except GoString ImageResponse
  /-- Function `png.Decode`. -/
  pngDecode : GoString → Except GoString Image
  /-- Method `base64.StdEncoding.DecodeString`. -/
  DecodeString : GoString → Except GoString GoString
  /-- Function `png.Encode` into a `bytes.Buffer`: the bytes written. -/
  pngEncode : RGBAImage → Except GoString GoString
  /-- Whether `writer.CreateFormFile` fails, line 101. -/
  createFormFileErr : Bool
  /-- Whether `io.Copy` into the form file fails, line 106. -/
  copyErr : Bool
  /-- Whether `http.NewRequest` fails, line 113. -/
  newRequestErr : Bool
  /-- Call `client.Do(req)` of line 124, as a function of the PNG in the
  multipart body. -/
  Do : GoString → Except GoString UploadResponse

/-- A `*redis.Options`, as far as this program is concerned: the address of the
server. -/
structure Options where
  Addr : GoString
  deriving DecidableEq, Repr

/-- A `*redis.Client`: it keeps its options and opens no connection before its
first command. -/
structure Client where
  opt : Options
  deriving DecidableEq, Repr

/-- The process in which `Handler` runs: its environment, as `godotenv.Load` and
the operating system left it, and the URL parser of go-redis. -/
structure Env where
  /-- Call `os.Getenv("REDIS_URL")`: empty when the variable is unset. -/
  REDIS_URL : GoString
  /-- Function `redis.ParseURL`. -/
  ParseURL : GoString → Except GoString Options

/-- Line 37, `opt, _ := redis.ParseURL(os.Getenv("REDIS_URL"))`: the error is
dropped, and `opt` is nil, here `none`, when there is one. -/
def redisOptions (env : Env) : Option Options :=
  (env.ParseURL env.REDIS_URL).toOption

/-- Function `redis.NewClient`, line 38: it panics on nil options; `none`
stands for that panic. -/
def NewClient (opt : Option Options) : Option Client :=
  match opt with
  | none => none
  | some o => some ⟨o⟩

/-- The keyspace of the Redis server: the newest entry of a key comes first. -/
abbrev Store := List (GoString × GoString)

/-- The value a key holds, if any. -/
def Store.get : Store → GoString → Option GoString
  | [], _ => none
  | (k, v) :: rest, key => if k = key then some v else Store.get rest key

/-- The keyspace after `SET key value` without expiration. -/
def Store.set (s : Store) (key value : GoString) : Store := (key, value) :: s

/-- A `*redis.StatusCmd` after the command ran: `Err()`, and the keyspace the
command leaves. -/
structure StatusCmd where
  Err : Option GoString
  store : Store
  deriving DecidableEq, Repr

/-- A `*redis.StringCmd` after the command ran: `Err()` and `Val()`. -/
structure StringCmd where
  Err : Option GoString
  Val : GoString
  deriving DecidableEq, Repr

/-- Method `redisC.Get(ctx, key)`: a missing key is the error `redis.Nil`, and
`Val()` is empty whenever `Err()` is not nil. -/
def Get (_redisC : Client) (world : World) (store : Store) (key : GoString) : StringCmd :=
  match world.getErr with
  | some err => ⟨some err, []⟩
  | none =>
    match store.get key with
    | none => ⟨some (lit "redis: nil"), []⟩
    | some val => ⟨none, val⟩

/-- Method `redisC.Set(ctx, key, value, 0)`: on an error the keyspace is taken as
unchanged. -/
def Set (_redisC : Client) (world : World) (store : Store) (key value : GoString) :
    StatusCmd :=
  match world.setErr with
  | some err => ⟨some err, store⟩
  | none => ⟨none, store.set key value⟩

/-- What one request does to its collaborators, in order. -/
inductive Event where
  /-- Line 47: the cache lookup. -/
  | redisGet (key : GoString)
  /-- Line 59: `fetchImage`, the fetch of the base image. -/
  | fetchImage (url : GoString)
  /-- Line 65: `base64ToPNG`, the decoding of the overlay. -/
  | base64ToPNG (b64 : GoString)
  /-- Line 124: the upload of the PNG to MineSkin. -/
  | upload (png : GoString)
  /-- Line 142: the cache write. -/
  | redisSet (key value : GoString)
  deriving DecidableEq, Repr

/-- The request as `Handler` reads it: the method, and the form that
`r.ParseForm()` builds, `none` when it returns an error. -/
structure Request where
  Method : GoString
  ParseForm : Option (List (GoString × GoString))

/-- Method `r.FormValue(key)`: the first value of the key, empty when the key
is absent. -/
def FormValue : List (GoString × GoString) → GoString → GoString
  | [], _ => []
  | (k, v) :: rest, key => if k = key then v else FormValue rest key

/-- What was written to the `http.ResponseWriter`. -/
structure Response where
  status : Nat
  header : List (GoString × GoString)
  body : GoString
  deriving DecidableEq, Repr

/-- Function `http.Error`: plain text, the status code, and the message
followed by a newline (`fmt.Fprintln`). -/
def Error (error : GoString) (code : Nat) : Response :=
  ⟨code,
   [(lit "Content-Type", lit "text/plain; charset=utf-8"),
    (lit "X-Content-Type-Options", lit "nosniff")],
   error ++ lit "\n"⟩

/-- Lines 50 to 52 and 148 to 150: a JSON response. -/
def writeJSON (code : Nat) (body : GoString) : Response :=
  ⟨code, [(lit "Content-Type", lit "application/json")], body⟩

/-- The outcome of one request: the response, what was done to the
collaborators, and the keyspace afterwards. -/
structure Result where
  resp : Response
  trace : List Event
  store : Store
  deriving DecidableEq, Repr

/-! ## `fetchImage` and `base64ToPNG` -/

/-- Function `fetchImage`, lines 167 to 189. -/
def fetchImage (world : World) (url : GoString) : Except GoString Image :=
  match world.httpGet url with
  | .error err => .error (lit "failed to fetch image: " ++ err)
  | .ok resp =>
    let contentType := resp.ContentType
    if ! HasPrefix contentType (lit "image/png") then
      .error (lit "invalid content type: " ++ contentType ++ lit " (expected image/png)")
    else
      match world.pngDecode resp.Body with
      | .error err => .error (lit "failed to decode PNG: " ++ err)
      | .ok img => .ok img

/-- Function `base64ToPNG`, lines 191 to 205. -/
def base64ToPNG (world : World) (b64 : GoString) : Except GoString Image :=
  let b64 := TrimPrefix b64 (lit "data:image/png;base64,")
  match world.DecodeString b64 with
  | .error err => .error (lit "failed to decode base64: " ++ err)
  | .ok decoded =>
    match world.pngDecode decoded with
    | .error err => .error (lit "failed to decode PNG: " ++ err)
    | .ok img => .ok img

/-! ## `Handler` -/

/-- Lines 91 to 150 of `Handler`: encode the composite, upload it, store the
answer.  `trace` is what the request has done so far; `none` is a panic of
`getRedisKey`. -/
def uploadComposite (redisC : Client) (world : World) (store : Store)
    (baseURL overlayStr : GoString) (trace : List Event) (img : RGBAImage) : Option Result :=
  match world.pngEncode img with
  | .error _ =>
    some ⟨Error (lit "Failed to encode composite image") 500, trace, store⟩
  | .ok buf =>
    if world.createFormFileErr then
      some ⟨Error (lit "Failed to create form file") 500, trace, store⟩
    else if world.copyErr then
      some ⟨Error (lit "Failed to copy image data") 500, trace, store⟩
    else if world.newRequestErr then
      some ⟨Error (lit "Failed to create MineSkin request") 500, trace, store⟩
    else
      let trace := trace ++ [Event.upload buf]
      match world.Do buf with
      | .error err =>
        some ⟨Error (lit "Failed to send request to MineSkin: " ++ err) 500, trace, store⟩
      | .ok resp =>
        match resp.Body with
        | .error _ =>
          some ⟨Error (lit "Failed to read MineSkin response") 500, trace, store⟩
        | .ok respBody =>
          if resp.StatusCode ≠ 200 then
            some ⟨Error (lit "Failed to upload skin to MineSkin: " ++ respBody) 500, trace, store⟩
          else
            match getRedisKey baseURL overlayStr with
            | none => none
            | some key =>
              let set := Set redisC world store key respBody
              let trace := trace ++ [Event.redisSet key respBody]
              match set.Err with
              | some err =>
                some ⟨Error (lit "Failed to set cache: " ++ err) 500, trace, set.store⟩
              | none =>
                some ⟨writeJSON resp.StatusCode respBody, trace, set.store⟩

/-- Lines 59 to 150 of `Handler`: the path of a cache miss. -/
def handleMiss (redisC : Client) (world : World) (store : Store)
    (baseURL overlayStr : GoString) (trace : List Event) : Option Result :=
  let trace := trace ++ [Event.fetchImage baseURL]
  match fetchImage world baseURL with
  | .error err =>
    some ⟨Error (lit "Failed to fetch base image: " ++ err) 400, trace, store⟩
  | .ok baseImg =>
    let trace := trace ++ [Event.base64ToPNG overlayStr]
    match base64ToPNG world overlayStr with
    | .error err =>
      some ⟨Error (lit "Failed to decode overlay image: " ++ err) 400, trace, store⟩
    | .ok overlayImg =>
      uploadComposite redisC world store baseURL overlayStr trace
        (composite baseImg overlayImg)

/-- Function `Handler`, lines 22 to 151.  `none` is a panic, of `redis.NewClient`
at line 38 or of `getRedisKey`; the handler then writes no response.  The
lines written to standard output by `fmt.Println` are left out. -/
def Handler (env : Env) (world : World) (store : Store) (r : Request) : Option Result :=
  if r.Method ≠ lit "POST" then
    some ⟨Error (lit "Method not allowed") 405, [], store⟩
  else
    match r.ParseForm with
    | none => some ⟨Error (lit "Failed to parse form") 400, [], store⟩
    | some form =>
      let baseURL := FormValue form (lit "base")
      let overlayStr := FormValue form (lit "overlay")
      let opt := redisOptions env
      match NewClient opt with
      | none => none
      | some redisC =>
        if baseURL = [] ∨ overlayStr = [] then
          some ⟨Error (lit "Missing base URL or overlay image") 400, [], store⟩
        else
          match getRedisKey baseURL overlayStr with
          | none => none
          | some key =>
            let cachedResp := Get redisC world store key
            let trace := [Event.redisGet key]
            if cachedResp.Err = none ∧ cachedResp.Val ≠ [] then
              some ⟨writeJSON 200 cachedResp.Val, trace, store⟩
            else
              handleMiss redisC world store baseURL overlayStr trace

/-! ## Sample images -/

/-- A 2x2 opaque truecolour base whose top-left pixel is the key colour. -/
def keyedBase : Image :=
  .rgba 2 2 (fun x y => if x = 0 ∧ y = 0 then (0, 0, 254) else (10, 20, 30))

/-- A 2x2 opaque truecolour base without the key colour. -/
def plainBase : Image := .rgba 2 2 (fun x y => (uint8 (x + 1), uint8 (y + 1), 7))

/-- A 2x2 opaque overlay with an alpha channel and without the key colour. -/
def solidOverlay : Image := .nrgba 2 2 (fun x y => ⟨200, uint8 x, uint8 y, 0xff⟩)

/-- A 2x2 overlay that is transparent everywhere. -/
def clearOverlay : Image := .nrgba 2 2 (fun _ _ => ⟨0, 0, 0, 0⟩)

/-- A 1x1 base: the key colour at alpha 254, in an image with an alpha channel. -/
def sheerBase : Image := .nrgba 1 1 (fun _ _ => ⟨0, 0, 254, 254⟩)

/-- A 1x1 overlay that is transparent. -/
def sheerOverlay : Image := .nrgba 1 1 (fun _ _ => ⟨0, 0, 0, 0⟩)

/-- A 1x1 base with an alpha channel: pure blue at alpha 254, stored as `(0,0,254,254)`. -/
def sheerBlue : Image := .nrgba 1 1 (fun _ _ => ⟨0, 0, 255, 254⟩)

/-! ## Sample requests -/

/-- A world in which every step before the upload succeeds, the cache answers,
and MineSkin answers with the given status code and body. -/
def sampleWorld (code : Nat) (body : GoString) : World where
  getErr := none
  setErr := none
  httpGet := fun _ => .ok ⟨lit "image/png", lit "base.png"⟩
  pngDecode := fun data => if data = lit "base.png" then .ok plainBase else .ok clearOverlay
  DecodeString := fun _ => .ok (lit "overlay.png")
  pngEncode := fun _ => .ok (lit "skin.png")
  createFormFileErr := false
  copyErr := false
  newRequestErr := false
  Do := fun _ => .ok ⟨code, .ok body⟩

/-- A process whose `REDIS_URL` parses. -/
def sampleEnv : Env where
  REDIS_URL := lit "redis://localhost:6379"
  ParseURL := fun _ => .ok ⟨lit "localhost:6379"⟩

/-- A process whose `REDIS_URL` is unset: `redis.ParseURL` rejects the empty
string. -/
def unsetEnv : Env where
  REDIS_URL := []
  ParseURL := fun url =>
    if url = [] then .error (lit "redis: invalid URL scheme: ") else .ok ⟨lit "localhost:6379"⟩

/-- The client that `Handler` builds in `sampleEnv`. -/
def sampleClient : Client := ⟨⟨lit "localhost:6379"⟩⟩

/-- A well-formed request: `POST` with both fields. -/
def sampleRequest : Request :=
  ⟨lit "POST", some [(lit "base", lit "https://example.org/base.png"), (lit "overlay", lit "AAAA")]⟩

/-- A request without the `overlay` field. -/
def noOverlayRequest : Request :=
  ⟨lit "POST", some [(lit "base", lit "https://example.org/base.png")]⟩

/-! # Theorems -/

/-! ## Arithmetic of the colour conversions -/

theorem widen_eq (n : Nat) (h : n < 256) : n ||| (n <<< 8) = n * 257 := by
  have h2 : n < 2 ^ 8 := by simpa using h
  rw [Nat.lor_comm, Nat.shiftLeft_eq, Nat.mul_comm n (2 ^ 8), ← Nat.mul_add_lt_is_or h2 n]
  omega

theorem RGBA_RGBA_eq (c : RGBA) :
    c.RGBA = ⟨c.R.val * 257, c.G.val * 257, c.B.val * 257, c.A.val * 257⟩ := by
  simp [RGBA.RGBA, widen_eq, c.R.isLt, c.G.isLt, c.B.isLt, c.A.isLt]

theorem uint8_high (b : Byte) : uint8 ((b.val * 257) >>> 8) = b := by
  apply Fin.ext
  have hb := b.isLt
  have h1 : b.val * 257 / 256 = b.val := by omega
  simp only [uint8, Nat.shiftRight_eq_div_pow]
  norm_num
  rw [h1]
  omega

theorem rgbaModel_Transparent : rgbaModel Transparent = ⟨0, 0, 0, 0⟩ := by
  decide

/-! ## One pixel of `draw.Over` at an opaque and at a transparent source -/

theorem uint8_shift (n : Nat) (h : n < 65536) : (uint8 (n >>> 8)).val = n / 256 := by
  simp only [uint8, Nat.shiftRight_eq_div_pow]
  norm_num
  omega

/-- The general path at an opaque source colour keeps the high bytes of the source. -/
theorem drawRGBA_maxAlpha (d : RGBA) (s : Quad) (hr : s.r < 65536) (hg : s.g < 65536)
    (hb : s.b < 65536) (ha : s.a = 65535) :
    drawRGBA d s = ⟨uint8 (s.r >>> 8), uint8 (s.g >>> 8), uint8 (s.b >>> 8), 255⟩ := by
  have h0 : u32 ((m - u32 (65535 * m) / m) * 0x101) = 0 := by decide
  have hq : ∀ n : Nat, n < 65536 → u32 (n * m) / m = n := by
    intro n hn
    simp only [u32, m]
    omega
  simp only [drawRGBA, ha, h0, Nat.mul_zero, Nat.zero_add, hq _ hr, hq _ hg, hq _ hb]
  have : uint8 ((u32 (65535 * m) / m) >>> 8) = 255 := by decide
  rw [this]

/-- The general path at a source colour that is all zero leaves the destination. -/
theorem drawRGBA_zero (d : RGBA) : drawRGBA d ⟨0, 0, 0, 0⟩ = d := by
  have h0 : u32 ((m - u32 (0 * m) / m) * 0x101) = 16842495 := by decide
  have hq : ∀ b : Byte, uint8 ((u32 (b.val * 16842495 + 0 * m) / m) >>> 8) = b := by
    intro b
    apply Fin.ext
    have hb := b.isLt
    have h1 : u32 (b.val * 16842495 + 0 * m) / m = b.val * 257 := by
      simp only [u32, m]
      omega
    rw [h1, uint8_shift _ (by omega)]
    omega
  simp only [drawRGBA, h0, hq]

theorem drawCopyOver_maxAlpha (d : RGBA) (r g b : Byte) :
    drawCopyOver d ⟨r, g, b, 0xff⟩ = ⟨r, g, b, 0xff⟩ := by
  have h0 : u32 ((m - (0xff : Byte).val * 0x101) * 0x101) = 0 := by decide
  have hq : ∀ c : Byte, uint8 (u32 (u32 (0) / m + c.val * 0x101) >>> 8) = c := by
    intro c
    apply Fin.ext
    have hc := c.isLt
    have h1 : u32 (u32 (0) / m + c.val * 0x101) = c.val * 257 := by
      simp only [u32, m]
      omega
    rw [h1, uint8_shift _ (by omega)]
    omega
  simp only [drawCopyOver, h0, Nat.mul_zero, hq]

theorem u32_small (n : Nat) (h : n < 4294967296) : u32 n = n := Nat.mod_eq_of_lt h

theorem drawNRGBAOver_maxAlpha (d : RGBA) (r g b : Byte) :
    drawNRGBAOver d ⟨r, g, b, 0xff⟩ = ⟨r, g, b, 0xff⟩ := by
  have h0 : u32 ((m - (0xff : Byte).val * 0x101) * 0x101) = 0 := by decide
  have hq : ∀ c : Byte,
      uint8 (u32 (u32 (0) / m + u32 (c.val * ((0xff : Byte).val * 0x101)) / 0xff) >>> 8) = c := by
    intro c
    apply Fin.ext
    have hc := c.isLt
    have e0 : (0xff : Byte).val * 0x101 = 65535 := by decide
    have e1 : u32 (c.val * 65535) = c.val * 65535 := u32_small _ (by omega)
    have e2 : c.val * 65535 / 0xff = c.val * 257 := by omega
    have e3 : u32 0 / m = 0 := by decide
    have e4 : u32 (0 + c.val * 257) = c.val * 257 := by rw [u32_small _ (by omega)]; omega
    rw [e0, e1, e2, e3, e4, uint8_shift _ (by omega)]
    omega
  have ha : uint8 (u32 (u32 (0) / m + (0xff : Byte).val * 0x101) >>> 8) = (0xff : Byte) := by decide
  simp only [drawNRGBAOver, h0, Nat.mul_zero, hq, ha]

theorem over_transparent_channel (c : Byte) :
    uint8 (u32 (u32 (c.val * 16842495) / m + 0) >>> 8) = c := by
  apply Fin.ext
  have hc := c.isLt
  have e1 : u32 (c.val * 16842495) = c.val * 16842495 := u32_small _ (by omega)
  have e2 : c.val * 16842495 / m = c.val * 257 := by
    show c.val * 16842495 / 65535 = c.val * 257
    omega
  have e4 : u32 (c.val * 257 + 0) = c.val * 257 := by rw [u32_small _ (by omega)]; omega
  rw [e1, e2, e4, uint8_shift _ (by omega)]
  omega

theorem drawNRGBAOver_transparent (d : RGBA) (r g b : Byte) :
    drawNRGBAOver d ⟨r, g, b, 0⟩ = d := by
  have h0 : u32 ((m - 0) * 0x101) = 16842495 := by decide
  have hs : ∀ c : Byte, u32 (c.val * 0) / 0xff = 0 := by
    intro c
    simp [u32]
  have ha : (0 : Byte).val * 0x101 = 0 := by decide
  simp only [drawNRGBAOver, h0, hs, ha, over_transparent_channel]

theorem widen_max (a : Byte) (h : a.val ||| (a.val <<< 8) = 0xffff) : a = 0xff := by
  rw [widen_eq _ a.isLt] at h
  apply Fin.ext
  show a.val = 255
  omega

theorem widen_zero (a : Byte) (h : a.val ||| (a.val <<< 8) = 0) : a = 0 := by
  rw [widen_eq _ a.isLt] at h
  apply Fin.ext
  show a.val = 0
  omega

theorem NRGBA_RGBA_maxAlpha (r g b : Byte) :
    NRGBA.RGBA ⟨r, g, b, 0xff⟩ = ⟨r.val * 257, g.val * 257, b.val * 257, 65535⟩ := by
  have hq : ∀ c : Byte, u32 ((c.val ||| (c.val <<< 8)) * (0xff : Byte).val) / 0xff
      = c.val * 257 := by
    intro c
    have hc := c.isLt
    have e0 : (0xff : Byte).val = 255 := rfl
    rw [widen_eq _ hc, e0, u32_small _ (by omega)]
    omega
  have ha : (0xff : Byte).val ||| ((0xff : Byte).val <<< 8) = 65535 := by decide
  simp only [NRGBA.RGBA, hq, ha]

theorem NRGBA_RGBA_transparent (r g b : Byte) : NRGBA.RGBA ⟨r, g, b, 0⟩ = ⟨0, 0, 0, 0⟩ := by
  have e0 : (0 : Byte).val = 0 := rfl
  simp [NRGBA.RGBA, e0, u32]

theorem NRGBA64_RGBA_maxAlpha (r g b : Word16) :
    NRGBA64.RGBA ⟨r, g, b, 0xffff⟩ = ⟨r.val, g.val, b.val, 65535⟩ := by
  have hq : ∀ c : Word16, u32 (c.val * (0xffff : Word16).val) / 0xffff = c.val := by
    intro c
    have hc := c.isLt
    have e0 : (0xffff : Word16).val = 65535 := rfl
    rw [e0, u32_small _ (by omega)]
    omega
  have e0 : (0xffff : Word16).val = 65535 := rfl
  simp only [NRGBA64.RGBA, hq]
  simp only [e0]

theorem NRGBA64_RGBA_transparent (r g b : Word16) :
    NRGBA64.RGBA ⟨r, g, b, 0⟩ = ⟨0, 0, 0, 0⟩ := by
  have e0 : (0 : Word16).val = 0 := rfl
  simp [NRGBA64.RGBA, e0, u32]

theorem rgbaModel_nrgba_maxAlpha (r g b : Byte) :
    rgbaModel (.nrgba ⟨r, g, b, 0xff⟩) = ⟨r, g, b, 0xff⟩ := by
  have ha : uint8 (65535 >>> 8) = (0xff : Byte) := by decide
  simp only [rgbaModel, Color.RGBA, NRGBA_RGBA_maxAlpha, uint8_high, ha]

/-- Drawing a source pixel of maximal alpha stores that pixel, whatever was there. -/
theorem drawOverAt_maxAlpha (src : Image) (x y : Nat) (d : RGBA)
    (h : (src.At x y).RGBA.a = 0xffff) : drawOverAt src x y d = rgbaModel (src.At x y) := by
  have ha : uint8 (65535 >>> 8) = (0xff : Byte) := by decide
  cases src with
  | gray w h pix =>
    simp only [drawOverAt, drawGray, Image.At, rgbaModel, Color.RGBA,
      widen_eq _ (pix x y).isLt, uint8_high, ha]
  | gray16 w h pix =>
    have hp := (pix x y).isLt
    simp only [drawOverAt, Image.At, rgbaModel, Color.RGBA]
    rw [drawRGBA_maxAlpha _ _ hp hp hp rfl]
    simp only [ha]
  | rgba w h pix =>
    simp only [drawOverAt, Image.At, rgbaModel, drawCopyOver_maxAlpha]
  | rgba64 w h pix =>
    simp only [drawOverAt, Image.At, rgbaModel, Color.RGBA, RGBA64.RGBA]
    rw [drawRGBA_maxAlpha _ _ (pix x y).1.isLt (pix x y).2.1.isLt (pix x y).2.2.isLt rfl]
    have ha2 : uint8 ((0xffff : Word16).val >>> 8) = (0xff : Byte) := by decide
    simp only [ha2]
  | nrgba w h pix =>
    simp only [Image.At, Color.RGBA, NRGBA.RGBA] at h
    have hA := widen_max _ h
    have hp : pix x y = ⟨(pix x y).R, (pix x y).G, (pix x y).B, 0xff⟩ := by
      rw [← hA]
    simp only [drawOverAt, Image.At]
    rw [hp, drawNRGBAOver_maxAlpha, rgbaModel_nrgba_maxAlpha]
  | nrgba64 w h pix =>
    simp only [Image.At, Color.RGBA, NRGBA64.RGBA] at h
    have hA : (pix x y).A = 0xffff := Fin.ext h
    have hp : pix x y = ⟨(pix x y).R, (pix x y).G, (pix x y).B, 0xffff⟩ := by
      rw [← hA]
    simp only [drawOverAt, Image.At, rgbaModel, Color.RGBA]
    rw [hp, NRGBA64_RGBA_maxAlpha]
    rw [drawRGBA_maxAlpha _ _ (pix x y).R.isLt (pix x y).G.isLt (pix x y).B.isLt rfl]
    simp only [ha]
  | paletted w h palette pix =>
    simp only [Image.At, Color.RGBA, NRGBA.RGBA] at h
    have hA := widen_max _ h
    have hp : palette (pix x y) = ⟨(palette (pix x y)).R, (palette (pix x y)).G,
        (palette (pix x y)).B, 0xff⟩ := by
      rw [← hA]
    have hlt : ∀ c : Byte, c.val * 257 < 65536 := fun c => by have := c.isLt; omega
    simp only [drawOverAt, Image.At, Color.RGBA]
    rw [hp, rgbaModel_nrgba_maxAlpha, NRGBA_RGBA_maxAlpha,
      drawRGBA_maxAlpha _ _ (hlt _) (hlt _) (hlt _) rfl]
    simp only [uint8_high]

/-- Drawing a source pixel of alpha zero leaves the destination pixel. -/
theorem drawOverAt_transparent (src : Image) (x y : Nat) (d : RGBA)
    (h : (src.At x y).RGBA.a = 0) : drawOverAt src x y d = d := by
  cases src with
  | gray w h pix => simp [Image.At, Color.RGBA] at h
  | gray16 w h pix => simp [Image.At, Color.RGBA] at h
  | rgba w h pix =>
    exfalso
    revert h
    simp only [Image.At, Color.RGBA, RGBA.RGBA]
    decide
  | rgba64 w h pix =>
    exfalso
    revert h
    simp only [Image.At, Color.RGBA, RGBA64.RGBA]
    decide
  | nrgba w h pix =>
    simp only [Image.At, Color.RGBA, NRGBA.RGBA] at h
    have hA := widen_zero _ h
    have hp : pix x y = ⟨(pix x y).R, (pix x y).G, (pix x y).B, 0⟩ := by
      rw [← hA]
    simp only [drawOverAt]
    rw [hp, drawNRGBAOver_transparent]
  | nrgba64 w h pix =>
    simp only [Image.At, Color.RGBA, NRGBA64.RGBA] at h
    have hA : (pix x y).A = 0 := Fin.ext h
    have hp : pix x y = ⟨(pix x y).R, (pix x y).G, (pix x y).B, 0⟩ := by
      rw [← hA]
    simp only [drawOverAt, Image.At, Color.RGBA]
    rw [hp, NRGBA64_RGBA_transparent, drawRGBA_zero]
  | paletted w h palette pix =>
    simp only [Image.At, Color.RGBA, NRGBA.RGBA] at h
    have hA := widen_zero _ h
    have hp : palette (pix x y) = ⟨(palette (pix x y)).R, (palette (pix x y)).G,
        (palette (pix x y)).B, 0⟩ := by
      rw [← hA]
    simp only [drawOverAt, Image.At, Color.RGBA]
    rw [hp, NRGBA_RGBA_transparent, drawRGBA_zero]

/-! ## The chroma-key scan, pixel by pixel -/

theorem scanPixel_w (c : RGBAImage) (x y : Nat) : (scanPixel c x y).w = c.w := by
  unfold scanPixel RGBAImage.Set
  simp only
  split_ifs <;> rfl

theorem scanPixel_h (c : RGBAImage) (x y : Nat) : (scanPixel c x y).h = c.h := by
  unfold scanPixel RGBAImage.Set
  simp only
  split_ifs <;> rfl

theorem scanPixel_pix (c : RGBAImage) (x y i j : Nat) :
    (scanPixel c x y).pix i j =
      if i = x ∧ j = y ∧ x < c.w ∧ y < c.h ∧
          (c.pix x y).R = 0 ∧ (c.pix x y).G = 0 ∧ (c.pix x y).B = 254
      then ⟨0, 0, 0, 0⟩ else c.pix i j := by
  unfold scanPixel
  simp only [RGBA_RGBA_eq, uint8_high]
  by_cases hb : x < c.w ∧ y < c.h
  · simp only [RGBAImage.At, hb, and_self, if_true, RGBAImage.Set, rgbaModel_Transparent]
    by_cases hk : (c.pix x y).R = 0 ∧ (c.pix x y).G = 0 ∧ (c.pix x y).B = 254
    · simp only [hk, and_self, if_true, true_and, and_true]
    · simp only [hk, and_false, if_false]
  · have h1 : ¬ (i = x ∧ j = y ∧ x < c.w ∧ y < c.h ∧
          (c.pix x y).R = 0 ∧ (c.pix x y).G = 0 ∧ (c.pix x y).B = 254) :=
        fun h => hb ⟨h.2.2.1, h.2.2.2.1⟩
    simp only [RGBAImage.At, hb, if_false, h1]
    simp

theorem scanRow_w (w : Nat) (c : RGBAImage) (y : Nat) : (scanRow w c y).w = c.w := by
  induction w with
  | zero => rfl
  | succ n ih =>
    simp only [scanRow, List.range_succ, List.foldl_append, List.foldl_cons, List.foldl_nil]
    rw [scanPixel_w]
    exact ih

theorem scanRow_h (w : Nat) (c : RGBAImage) (y : Nat) : (scanRow w c y).h = c.h := by
  induction w with
  | zero => rfl
  | succ n ih =>
    simp only [scanRow, List.range_succ, List.foldl_append, List.foldl_cons, List.foldl_nil]
    rw [scanPixel_h]
    exact ih

theorem scanRow_succ (n : Nat) (c : RGBAImage) (y : Nat) :
    scanRow (n + 1) c y = scanPixel (scanRow n c y) n y := by
  simp only [scanRow, List.range_succ, List.foldl_append, List.foldl_cons, List.foldl_nil]

theorem scanRow_pix (w : Nat) (c : RGBAImage) (y : Nat) : ∀ i j : Nat,
    (scanRow w c y).pix i j =
      if i < w ∧ j = y ∧ i < c.w ∧ y < c.h ∧
          (c.pix i j).R = 0 ∧ (c.pix i j).G = 0 ∧ (c.pix i j).B = 254
      then ⟨0, 0, 0, 0⟩ else c.pix i j := by
  induction w with
  | zero => intro i j; simp [scanRow]
  | succ n ih =>
    intro i j
    rw [scanRow_succ, scanPixel_pix, scanRow_w, scanRow_h, ih n y, ih i j]
    have hnn : ¬ (n < n ∧ y = y ∧ n < c.w ∧ y < c.h ∧
        (c.pix n y).R = 0 ∧ (c.pix n y).G = 0 ∧ (c.pix n y).B = 254) := fun h => lt_irrefl _ h.1
    rw [if_neg hnn]
    by_cases hi : i = n
    · subst hi
      by_cases hj : j = y
      · subst hj
        simp
      · simp [hj]
    · have h1 : i < n + 1 ↔ i < n := by omega
      simp [hi, h1]

theorem chromaScan_succ (w n : Nat) (c : RGBAImage) :
    chromaScan w (n + 1) c = scanRow w (chromaScan w n c) n := by
  simp only [chromaScan, List.range_succ, List.foldl_append, List.foldl_cons, List.foldl_nil]

theorem chromaScan_w (w h : Nat) (c : RGBAImage) : (chromaScan w h c).w = c.w := by
  induction h with
  | zero => rfl
  | succ n ih => rw [chromaScan_succ, scanRow_w, ih]

theorem chromaScan_h (w h : Nat) (c : RGBAImage) : (chromaScan w h c).h = c.h := by
  induction h with
  | zero => rfl
  | succ n ih => rw [chromaScan_succ, scanRow_h, ih]

theorem chromaScan_pix (w h : Nat) (c : RGBAImage) : ∀ i j : Nat,
    (chromaScan w h c).pix i j =
      if i < w ∧ j < h ∧ i < c.w ∧ j < c.h ∧
          (c.pix i j).R = 0 ∧ (c.pix i j).G = 0 ∧ (c.pix i j).B = 254
      then ⟨0, 0, 0, 0⟩ else c.pix i j := by
  induction h with
  | zero => intro i j; simp [chromaScan]
  | succ n ih =>
    intro i j
    rw [chromaScan_succ, scanRow_pix, chromaScan_w, chromaScan_h, ih i j]
    by_cases hj : j = n
    · subst hj
      simp
    · have h1 : j < n + 1 ↔ j < n := by omega
      simp [hj, h1]

/-! ## The composite, pixel by pixel -/

theorem blend_w (b o : Image) : (blend b o).w = b.w := rfl

theorem blend_h (b o : Image) : (blend b o).h = b.h := rfl

theorem blend_pix (b o : Image) (x y : Nat) (hx : x < b.w) (hy : y < b.h) :
    (blend b o).pix x y =
      if x < o.w ∧ y < o.h then drawOverAt o x y (drawOverAt b x y ⟨0, 0, 0, 0⟩)
      else drawOverAt b x y ⟨0, 0, 0, 0⟩ := by
  have h1 : x < min (min b.w b.w) b.w ∧ y < min (min b.h b.h) b.h := by
    simp only [min_self]
    exact ⟨hx, hy⟩
  have h2 : (x < min (min b.w b.w) o.w ∧ y < min (min b.h b.h) o.h) ↔ (x < o.w ∧ y < o.h) := by
    simp only [min_self, lt_min_iff]
    tauto
  simp only [blend, Draw, NewRGBA, h1, h2, and_self, if_true]

theorem composite_w (b o : Image) : (composite b o).w = b.w := by
  simp only [composite, chromaScan_w, blend_w]

theorem composite_h (b o : Image) : (composite b o).h = b.h := by
  simp only [composite, chromaScan_h, blend_h]

theorem composite_At (b o : Image) (x y : Nat) (hx : x < b.w) (hy : y < b.h) :
    (composite b o).At x y =
      if ((blend b o).pix x y).R = 0 ∧ ((blend b o).pix x y).G = 0 ∧
          ((blend b o).pix x y).B = 254
      then ⟨0, 0, 0, 0⟩ else (blend b o).pix x y := by
  simp only [RGBAImage.At, composite_w, composite_h, hx, hy, and_self, if_true]
  simp only [composite, chromaScan_pix, blend_w, blend_h, hx, hy, true_and]

theorem blend_At (b o : Image) (x y : Nat) (hx : x < b.w) (hy : y < b.h) :
    (blend b o).At x y = (blend b o).pix x y := by
  simp only [RGBAImage.At, blend_w, blend_h, hx, hy, and_self, if_true]

theorem composite_At_outside (b o : Image) (x y : Nat) (h : ¬ (x < b.w ∧ y < b.h)) :
    (composite b o).At x y = ⟨0, 0, 0, 0⟩ := by
  simp only [RGBAImage.At, composite_w, composite_h, h, if_false]

theorem nrgbaModel_maxAlpha (p : RGBA) (h : p.A = 0xff) : nrgbaModel p = ⟨p.R, p.G, p.B, 0xff⟩ := by
  have ha : (0xff : Byte).val * 257 = 0xffff := by decide
  simp only [nrgbaModel, RGBA_RGBA_eq, h, ha, if_true, uint8_high]

theorem composite_of_solid_overlay (b o : Image) (x y : Nat)
    (hx : x < b.w) (hy : y < b.h) (hxo : x < o.w) (hyo : y < o.h)
    (ha : (o.At x y).RGBA.a = 0xffff)
    (hk : ¬ ((rgbaModel (o.At x y)).R = 0 ∧ (rgbaModel (o.At x y)).G = 0 ∧
      (rgbaModel (o.At x y)).B = 254)) :
    (composite b o).At x y = rgbaModel (o.At x y) := by
  have hp : (blend b o).pix x y = rgbaModel (o.At x y) := by
    rw [blend_pix _ _ _ _ hx hy, if_pos ⟨hxo, hyo⟩, drawOverAt_maxAlpha _ _ _ _ ha]
  rw [composite_At _ _ _ _ hx hy, hp, if_neg hk]

/-! ## The cache key -/

theorem sha256Sum_length (data : List Byte) : (sha256Sum data).length = 32 := by
  simp [sha256Sum, putUint32]

theorem EncodeToString_length : ∀ src : List Byte,
    (EncodeToString src).length = (src.length + 2) / 3 * 4
  | a :: b :: c :: rest => by
    have ih := EncodeToString_length rest
    simp only [EncodeToString, List.length_cons, ih]
    omega
  | [a, b] => by simp [EncodeToString]
  | [a] => by simp [EncodeToString]
  | [] => by simp [EncodeToString]

theorem encoded_length (input : GoString) :
    (EncodeToString (sha256Sum input)).length = 44 := by
  rw [EncodeToString_length, sha256Sum_length]

theorem hashString_eq (input : GoString) :
    hashString input = some ((EncodeToString (sha256Sum input)).take 16) := by
  simp only [hashString, encoded_length]
  simp

theorem getRedisKey_eq (baseURL overlayStr : GoString) :
    getRedisKey baseURL overlayStr =
      some ((EncodeToString (sha256Sum (baseURL ++ lit ":" ++ overlayStr))).take 16) := by
  rw [getRedisKey, hashString_eq, redisKeyInput]

theorem lit_colon : lit ":" = [58] := by decide

/-- Two joined strings are equal only when the pairs are equal or one base runs
into the other overlay across a separator. -/
theorem joined_eq_cases (b1 o1 b2 o2 : List Byte)
    (h : b1 ++ 58 :: o1 = b2 ++ 58 :: o2) :
    (b1 = b2 ∧ o1 = o2) ∨ (∃ t, b2 = b1 ++ 58 :: t ∧ o1 = t ++ 58 :: o2) ∨
      (∃ t, b1 = b2 ++ 58 :: t ∧ o2 = t ++ 58 :: o1) := by
  rcases List.append_eq_append_iff.mp h with ⟨a, h1, h2⟩ | ⟨c, h1, h2⟩
  · cases a with
    | nil =>
      simp only [List.append_nil, List.nil_append, List.cons.injEq, true_and] at h1 h2
      exact Or.inl ⟨h1.symm, h2⟩
    | cons x t =>
      simp only [List.cons_append, List.cons.injEq] at h2
      refine Or.inr (Or.inl ⟨t, ?_, h2.2⟩)
      rw [h1, ← h2.1]
  · cases c with
    | nil =>
      simp only [List.append_nil, List.nil_append, List.cons.injEq, true_and] at h1 h2
      exact Or.inl ⟨h1, h2.symm⟩
    | cons x t =>
      simp only [List.cons_append, List.cons.injEq] at h2
      refine Or.inr (Or.inr ⟨t, ?_, h2.2⟩)
      rw [h1, ← h2.1]

/-- The first test vector of FIPS 180: the digest of `abc`. -/
theorem sha256Sum_abc :
    sha256Sum (lit "abc") =
      [186, 120, 22, 191, 143, 1, 207, 234, 65, 65, 64, 222, 93, 174, 34, 35, 176, 3, 97, 163,
       150, 23, 122, 156, 180, 16, 255, 97, 242, 0, 21, 173] := by
  rfl

/-- The second test vector of FIPS 180: a message of 56 bytes, two blocks. -/
theorem sha256Sum_two_blocks :
    sha256Sum (lit "abcdbcdecdefdefgefghfghighijhijkijkljklmklmnlmnomnopnopq") =
      [36, 141, 106, 97, 210, 6, 56, 184, 229, 192, 38, 147, 12, 62, 96, 57, 163, 60, 228, 89,
       100, 255, 33, 103, 246, 236, 237, 212, 25, 219, 6, 193] := by
  rfl

/-- Test vectors of RFC 4648 for the three shapes of the last group. -/
theorem EncodeToString_foobar :
    EncodeToString (lit "foobar") = lit "Zm9vYmFy" ∧
    EncodeToString (lit "fooba") = lit "Zm9vYmE=" ∧
    EncodeToString (lit "foob") = lit "Zm9vYg==" :=
  ⟨rfl, rfl, rfl⟩

/-- The key of the pair of empty strings: the digest of `:`. -/
theorem getRedisKey_empty : getRedisKey [] [] = some (lit "56wHhmaOD/DwK2K9") := by
  rfl

/-! ## The request handler, stage by stage -/

theorem FormValue_missing : ∀ (form : List (GoString × GoString)) (key : GoString),
    (∀ p ∈ form, p.1 ≠ key) → FormValue form key = []
  | [], _, _ => rfl
  | (k, v) :: rest, key, h => by
    have hk : k ≠ key := h (k, v) (List.mem_cons_self _ _)
    have hr : ∀ p ∈ rest, p.1 ≠ key := fun p hp => h p (List.mem_cons_of_mem _ hp)
    simp only [FormValue, if_neg hk]
    exact FormValue_missing rest key hr

/-- What lines 91 to 150 can end in. -/
theorem uploadComposite_cases (redisC : Client) (world : World) (store : Store)
    (baseURL overlayStr : GoString) (trace : List Event) (img : RGBAImage) :
    ∃ res, uploadComposite redisC world store baseURL overlayStr trace img = some res ∧
      ((res.resp.status = 500 ∧ res.store = store ∧ res.trace = trace) ∨
       (∃ png, res.trace = trace ++ [Event.upload png] ∧ res.store = store ∧
          res.resp.status = 500 ∧
          (∀ code body, world.Do png = .ok ⟨code, .ok body⟩ →
            code ≠ 200 ∧
            res.resp = Error (lit "Failed to upload skin to MineSkin: " ++ body) 500)) ∨
       (∃ png body key, world.Do png = .ok ⟨200, .ok body⟩ ∧
          getRedisKey baseURL overlayStr = some key ∧
          res.trace = trace ++ [Event.upload png, Event.redisSet key body] ∧
          ((res.resp.status = 500 ∧ res.store = store) ∨
           (res.resp = writeJSON 200 body ∧ res.store = store.set key body)))) := by
  simp only [uploadComposite, getRedisKey_eq, Set]
  split
  · exact ⟨_, rfl, Or.inl ⟨rfl, rfl, rfl⟩⟩
  · rename_i buf hbuf
    split_ifs
    · exact ⟨_, rfl, Or.inl ⟨rfl, rfl, rfl⟩⟩
    · exact ⟨_, rfl, Or.inl ⟨rfl, rfl, rfl⟩⟩
    · exact ⟨_, rfl, Or.inl ⟨rfl, rfl, rfl⟩⟩
    · split
      · rename_i err hdo
        refine ⟨_, rfl, Or.inr (Or.inl ⟨buf, rfl, rfl, rfl, ?_⟩)⟩
        intro code body h
        rw [hdo] at h
        cases h
      · rename_i resp hdo
        split
        · rename_i err hbody
          refine ⟨_, rfl, Or.inr (Or.inl ⟨buf, rfl, rfl, rfl, ?_⟩)⟩
          intro code body h
          rw [hdo] at h
          injection h with h
          rw [h] at hbody
          cases hbody
        · rename_i respBody hbody
          split_ifs with hcode
          · refine ⟨_, rfl, Or.inr (Or.inl ⟨buf, rfl, rfl, rfl, ?_⟩)⟩
            intro code body h
            rw [hdo] at h
            injection h with h
            rw [h] at hbody hcode
            simp only at hbody hcode
            injection hbody with hb
            rw [hb]
            exact ⟨hcode, rfl⟩
          · have hc : resp.StatusCode = 200 := by
              simpa only [ne_eq, Decidable.not_not] using hcode
            have hresp : world.Do buf = .ok ⟨200, .ok respBody⟩ := by
              rw [hdo]
              cases resp
              simp only at hbody hc
              rw [hbody, hc]
            cases hset : world.setErr with
            | some err =>
              exact ⟨_, rfl, Or.inr (Or.inr ⟨buf, respBody, _, hresp, rfl, by simp,
                Or.inl ⟨rfl, rfl⟩⟩)⟩
            | none =>
              refine ⟨_, rfl, Or.inr (Or.inr ⟨buf, respBody, _, hresp, rfl, by simp,
                Or.inr ⟨?_, rfl⟩⟩)⟩
              simp only [hc]

/-- What lines 59 to 150 can end in. -/
theorem handleMiss_cases (redisC : Client) (world : World) (store : Store)
    (baseURL overlayStr : GoString) (trace : List Event) :
    ∃ res, handleMiss redisC world store baseURL overlayStr trace = some res ∧
      ((res.resp.status ≠ 200 ∧ res.store = store ∧
          (res.trace = trace ++ [Event.fetchImage baseURL] ∨
           res.trace = trace ++ [Event.fetchImage baseURL, Event.base64ToPNG overlayStr])) ∨
       (∃ png, res.trace = trace ++ [Event.fetchImage baseURL, Event.base64ToPNG overlayStr,
            Event.upload png] ∧ res.store = store ∧ res.resp.status = 500 ∧
          (∀ code body, world.Do png = .ok ⟨code, .ok body⟩ →
            code ≠ 200 ∧
            res.resp = Error (lit "Failed to upload skin to MineSkin: " ++ body) 500)) ∨
       (∃ png body key, world.Do png = .ok ⟨200, .ok body⟩ ∧
          getRedisKey baseURL overlayStr = some key ∧
          res.trace = trace ++ [Event.fetchImage baseURL, Event.base64ToPNG overlayStr,
            Event.upload png, Event.redisSet key body] ∧
          ((res.resp.status = 500 ∧ res.store = store) ∨
           (res.resp = writeJSON 200 body ∧ res.store = store.set key body)))) := by
  simp only [handleMiss]
  split
  · exact ⟨_, rfl, Or.inl ⟨(by decide : (400 : Nat) ≠ 200), rfl, Or.inl rfl⟩⟩
  · rename_i baseImg _
    split
    · exact ⟨_, rfl, Or.inl ⟨(by decide : (400 : Nat) ≠ 200), rfl, Or.inr (by simp)⟩⟩
    · rename_i overlayImg _
      obtain ⟨res, hres, hcase⟩ := uploadComposite_cases redisC world store baseURL overlayStr
        (trace ++ [Event.fetchImage baseURL] ++ [Event.base64ToPNG overlayStr])
        (composite baseImg overlayImg)
      refine ⟨res, hres, ?_⟩
      rcases hcase with ⟨h1, h2, h3⟩ | ⟨png, h1, h2, h3, h4⟩ | ⟨png, body, key, h1, h2, h3, h4⟩
      · refine Or.inl ⟨by rw [h1]; decide, h2, Or.inr ?_⟩
        rw [h3]
        simp
      · refine Or.inr (Or.inl ⟨png, ?_, h2, h3, h4⟩)
        rw [h1]
        simp
      · refine Or.inr (Or.inr ⟨png, body, key, h1, h2, ?_, h4⟩)
        rw [h3]
        simp

/-- A request that is not a `POST` with a form that parses and both fields set
gets no further than line 43: either `redis.NewClient` panics or an error is
written, with nothing done to the collaborators. -/
theorem Handler_invalid (env : Env) (world : World) (store : Store) (r : Request)
    (h : ¬ (r.Method = lit "POST" ∧ ∃ form, r.ParseForm = some form ∧
      FormValue form (lit "base") ≠ [] ∧ FormValue form (lit "overlay") ≠ [])) :
    ∀ res, Handler env world store r = some res →
      res.resp.status ≠ 200 ∧ res.trace = [] ∧ res.store = store := by
  intro res hres
  simp only [Handler] at hres
  split_ifs at hres with hm
  · rw [← Option.some.inj hres]
    exact ⟨(by decide : (405 : Nat) ≠ 200), rfl, rfl⟩
  · simp only [ne_eq, Decidable.not_not] at hm
    split at hres
    · rw [← Option.some.inj hres]
      exact ⟨(by decide : (400 : Nat) ≠ 200), rfl, rfl⟩
    · rename_i form hf
      split at hres
      · cases hres
      · split_ifs at hres with he
        · rw [← Option.some.inj hres]
          exact ⟨(by decide : (400 : Nat) ≠ 200), rfl, rfl⟩
        · exfalso
          apply h
          refine ⟨hm, form, hf, ?_, ?_⟩
          · exact fun hb => he (Or.inl hb)
          · exact fun ho => he (Or.inr ho)

/-- Once the client is built, every request gets a result. -/
theorem Handler_invalid_total (env : Env) (world : World) (store : Store) (r : Request)
    (redisC : Client) (hc : NewClient (redisOptions env) = some redisC)
    (h : ¬ (r.Method = lit "POST" ∧ ∃ form, r.ParseForm = some form ∧
      FormValue form (lit "base") ≠ [] ∧ FormValue form (lit "overlay") ≠ [])) :
    ∃ res, Handler env world store r = some res := by
  simp only [Handler, hc]
  split_ifs with hm
  · exact ⟨_, rfl⟩
  · simp only [ne_eq, Decidable.not_not] at hm
    split
    · exact ⟨_, rfl⟩
    · rename_i form hf
      split_ifs with he
      · exact ⟨_, rfl⟩
      · exfalso
        apply h
        refine ⟨hm, form, hf, ?_, ?_⟩
        · exact fun hb => he (Or.inl hb)
        · exact fun ho => he (Or.inr ho)

theorem Handler_valid (env : Env) (world : World) (store : Store) (r : Request)
    (form : List (GoString × GoString)) (redisC : Client)
    (hc : NewClient (redisOptions env) = some redisC)
    (hm : r.Method = lit "POST") (hf : r.ParseForm = some form)
    (hb : FormValue form (lit "base") ≠ []) (ho : FormValue form (lit "overlay") ≠ []) :
    ∃ key, getRedisKey (FormValue form (lit "base")) (FormValue form (lit "overlay")) = some key ∧
      Handler env world store r =
        if (Get redisC world store key).Err = none ∧ (Get redisC world store key).Val ≠ [] then
          some ⟨writeJSON 200 (Get redisC world store key).Val, [Event.redisGet key], store⟩
        else
          handleMiss redisC world store (FormValue form (lit "base"))
            (FormValue form (lit "overlay")) [Event.redisGet key] := by
  refine ⟨_, getRedisKey_eq _ _, ?_⟩
  have he : ¬ (FormValue form (lit "base") = [] ∨ FormValue form (lit "overlay") = []) := by
    rintro (h | h)
    · exact hb h
    · exact ho h
  simp only [Handler, hm, hf, hc, ne_eq, not_true_eq_false, if_false, he, getRedisKey_eq]

/-- A `POST` whose form parses and that got a result had its client built. -/
theorem Handler_some_client (env : Env) (world : World) (store : Store) (r : Request)
    (form : List (GoString × GoString)) (res : Result)
    (hm : r.Method = lit "POST") (hf : r.ParseForm = some form)
    (h : Handler env world store r = some res) :
    ∃ redisC, NewClient (redisOptions env) = some redisC := by
  cases hc : NewClient (redisOptions env) with
  | none =>
    simp only [Handler, hm, hf, hc, ne_eq, not_true_eq_false, if_false] at h
    cases h
  | some redisC => exact ⟨redisC, rfl⟩

theorem Store_get_set (store : Store) (key value : GoString) :
    (store.set key value).get key = some value := by
  simp [Store.set, Store.get]

theorem Get_after_set (redisC : Client) (world : World) (store : Store) (key value : GoString)
    (h : world.getErr = none) :
    Get redisC world (store.set key value) key = ⟨none, value⟩ := by
  simp only [Get, h, Store_get_set]

/-- The sample request when MineSkin accepts the skin. -/
theorem sampleRequest_first :
    Handler sampleEnv (sampleWorld 200 (lit "{}")) [] sampleRequest =
      some ⟨writeJSON 200 (lit "{}"),
        [Event.redisGet (lit "xqtDvxZVC8ZurtEW"),
         Event.fetchImage (lit "https://example.org/base.png"),
         Event.base64ToPNG (lit "AAAA"),
         Event.upload (lit "skin.png"),
         Event.redisSet (lit "xqtDvxZVC8ZurtEW") (lit "{}")],
        [(lit "xqtDvxZVC8ZurtEW", lit "{}")]⟩ := by
  rfl

/-- The sample request when MineSkin rejects the skin. -/
theorem sampleRequest_rejected :
    Handler sampleEnv (sampleWorld 403 (lit "denied")) [] sampleRequest =
      some ⟨Error (lit "Failed to upload skin to MineSkin: denied") 500,
        [Event.redisGet (lit "xqtDvxZVC8ZurtEW"),
         Event.fetchImage (lit "https://example.org/base.png"),
         Event.base64ToPNG (lit "AAAA"),
         Event.upload (lit "skin.png")],
        []⟩ := by
  rfl


/-- The client of the sample process. -/
theorem sampleEnv_client : NewClient (redisOptions sampleEnv) = some sampleClient := rfl

/-- In a process without `REDIS_URL` no client is built. -/
theorem unsetEnv_client : NewClient (redisOptions unsetEnv) = none := rfl
/-! # The claims about the compositor -/

/-- C1: Chroma-key scan.  At every coordinate inside the base bounds, with `p` the
pixel of the composite after the two `draw.Over` blends: when `p` has
`(R,G,B) = (0,0,254)` the final pixel is `R = G = B = A = 0`, otherwise the
final pixel is `p` unchanged; and no pixel of the final composite, at any
coordinate, has RGB `(0,0,254)`. -/
theorem chroma_key_scan (baseImg overlayImg : Image) (x y : Nat)
    (hx : x < baseImg.w) (hy : y < baseImg.h) :
    ((((blend baseImg overlayImg).At x y).R = 0 ∧ ((blend baseImg overlayImg).At x y).G = 0 ∧
        ((blend baseImg overlayImg).At x y).B = 254) →
      (composite baseImg overlayImg).At x y = ⟨0, 0, 0, 0⟩) ∧
    (¬ (((blend baseImg overlayImg).At x y).R = 0 ∧ ((blend baseImg overlayImg).At x y).G = 0 ∧
        ((blend baseImg overlayImg).At x y).B = 254) →
      (composite baseImg overlayImg).At x y = (blend baseImg overlayImg).At x y) ∧
    (∀ i j : Nat, ¬ (((composite baseImg overlayImg).At i j).R = 0 ∧
        ((composite baseImg overlayImg).At i j).G = 0 ∧
        ((composite baseImg overlayImg).At i j).B = 254)) := by
  refine ⟨?_, ?_, ?_⟩
  · intro hk
    rw [blend_At _ _ _ _ hx hy] at hk
    rw [composite_At _ _ _ _ hx hy, if_pos hk]
  · intro hk
    rw [blend_At _ _ _ _ hx hy] at hk
    rw [composite_At _ _ _ _ hx hy, if_neg hk, blend_At _ _ _ _ hx hy]
  · intro i j
    by_cases hb : i < baseImg.w ∧ j < baseImg.h
    · rw [composite_At _ _ _ _ hb.1 hb.2]
      by_cases hk : ((blend baseImg overlayImg).pix i j).R = 0 ∧
          ((blend baseImg overlayImg).pix i j).G = 0 ∧ ((blend baseImg overlayImg).pix i j).B = 254
      · rw [if_pos hk]
        decide
      · rw [if_neg hk]
        exact hk
    · rw [composite_At_outside _ _ _ _ hb]
      decide

/-- Witness of C1 on a 2x2 base whose top-left pixel is the key colour. -/
theorem chroma_key_scan_witness :
    (0 < keyedBase.w ∧ 0 < keyedBase.h) ∧
    (blend keyedBase clearOverlay).At 0 0 = ⟨0, 0, 254, 255⟩ ∧
    (composite keyedBase clearOverlay).At 0 0 = ⟨0, 0, 0, 0⟩ :=
  ⟨by decide, by decide,
    (chroma_key_scan keyedBase clearOverlay 0 0 (by decide) (by decide)).1 (by decide)⟩

/-- Counterexample to C2 as stated: a blended pixel stored as `(0,0,253,254)` has
the straight colour `(0,0,254)` at alpha 254, and the scan leaves its alpha at
254. -/
theorem chroma_key_straight_colour_counterexample :
    (0 < sheerBase.w ∧ 0 < sheerBase.h) ∧
    (blend sheerBase sheerOverlay).At 0 0 = ⟨0, 0, 253, 254⟩ ∧
    nrgbaModel ((blend sheerBase sheerOverlay).At 0 0) = ⟨0, 0, 254, 254⟩ ∧
    ((composite sheerBase sheerOverlay).At 0 0).A = 254 := by
  decide

/-- C2 (amended): the chroma key tests the stored, alpha-premultiplied bytes and
ignores alpha.  Every pixel of the blended composite whose stored 8-bit RGB is
`(0,0,254)`, whatever its alpha, has alpha 0 in the final composite; so does
every fully opaque pixel whose straight RGB is `(0,0,254)`. -/
theorem chroma_key_premultiplied (baseImg overlayImg : Image) (x y : Nat)
    (hx : x < baseImg.w) (hy : y < baseImg.h) :
    ((((blend baseImg overlayImg).At x y).R = 0 ∧ ((blend baseImg overlayImg).At x y).G = 0 ∧
        ((blend baseImg overlayImg).At x y).B = 254) →
      ((composite baseImg overlayImg).At x y).A = 0) ∧
    (((blend baseImg overlayImg).At x y).A = 0xff →
      ((nrgbaModel ((blend baseImg overlayImg).At x y)).R = 0 ∧
        (nrgbaModel ((blend baseImg overlayImg).At x y)).G = 0 ∧
        (nrgbaModel ((blend baseImg overlayImg).At x y)).B = 254) →
      ((composite baseImg overlayImg).At x y).A = 0) := by
  have key : (((blend baseImg overlayImg).At x y).R = 0 ∧
      ((blend baseImg overlayImg).At x y).G = 0 ∧
      ((blend baseImg overlayImg).At x y).B = 254) →
      ((composite baseImg overlayImg).At x y).A = 0 := by
    intro hk
    rw [blend_At _ _ _ _ hx hy] at hk
    rw [composite_At _ _ _ _ hx hy, if_pos hk]
  refine ⟨key, ?_⟩
  intro ha hs
  rw [nrgbaModel_maxAlpha _ ha] at hs
  exact key hs

/-- Witness of C2 (amended): pure blue at alpha 254 is stored as `(0,0,254,254)`
and is keyed out. -/
theorem chroma_key_premultiplied_witness :
    (0 < sheerBlue.w ∧ 0 < sheerBlue.h) ∧
    (blend sheerBlue sheerOverlay).At 0 0 = ⟨0, 0, 254, 254⟩ ∧
    ((composite sheerBlue sheerOverlay).At 0 0).A = 0 :=
  ⟨by decide, by decide,
    (chroma_key_premultiplied sheerBlue sheerOverlay 0 0 (by decide) (by decide)).1 (by decide)⟩

/-- C3: Opaque overlay obscures base.  At every coordinate inside both images
where the overlay's alpha is maximal and its RGB is not `(0,0,254)`, the final
pixel is the overlay pixel, whatever the base pixel is; hence for grids of
equal dimensions, both fully opaque and neither with a pixel of RGB
`(0,0,254)`, the final composite has the overlay's dimensions and equals the
overlay pixel for pixel. -/
theorem overlay_at_max_alpha_obscures_base (baseImg overlayImg : Image) :
    (∀ x y : Nat, x < baseImg.w → y < baseImg.h → x < overlayImg.w → y < overlayImg.h →
      (overlayImg.At x y).RGBA.a = 0xffff →
      ¬ ((rgbaModel (overlayImg.At x y)).R = 0 ∧ (rgbaModel (overlayImg.At x y)).G = 0 ∧
        (rgbaModel (overlayImg.At x y)).B = 254) →
      (composite baseImg overlayImg).At x y = rgbaModel (overlayImg.At x y)) ∧
    (overlayImg.w = baseImg.w → overlayImg.h = baseImg.h →
      (∀ x y : Nat, x < baseImg.w → y < baseImg.h →
        (baseImg.At x y).RGBA.a = 0xffff ∧ (overlayImg.At x y).RGBA.a = 0xffff ∧
        ¬ ((rgbaModel (baseImg.At x y)).R = 0 ∧ (rgbaModel (baseImg.At x y)).G = 0 ∧
          (rgbaModel (baseImg.At x y)).B = 254) ∧
        ¬ ((rgbaModel (overlayImg.At x y)).R = 0 ∧ (rgbaModel (overlayImg.At x y)).G = 0 ∧
          (rgbaModel (overlayImg.At x y)).B = 254)) →
      (composite baseImg overlayImg).w = overlayImg.w ∧
      (composite baseImg overlayImg).h = overlayImg.h ∧
      ∀ x y : Nat, x < overlayImg.w → y < overlayImg.h →
        (composite baseImg overlayImg).At x y = rgbaModel (overlayImg.At x y)) := by
  refine ⟨?_, ?_⟩
  · intro x y hx hy hxo hyo ha hk
    exact composite_of_solid_overlay _ _ _ _ hx hy hxo hyo ha hk
  · intro hw hh hall
    refine ⟨by rw [composite_w, hw], by rw [composite_h, hh], ?_⟩
    intro x y hxo hyo
    have hx : x < baseImg.w := hw ▸ hxo
    have hy : y < baseImg.h := hh ▸ hyo
    obtain ⟨_, ha, _, hk⟩ := hall x y hx hy
    exact composite_of_solid_overlay _ _ _ _ hx hy hxo hyo ha hk

/-- Witness of C3 on a 2x2 opaque base and a 2x2 opaque overlay. -/
theorem overlay_at_max_alpha_obscures_base_witness :
    (solidOverlay.w = plainBase.w ∧ solidOverlay.h = plainBase.h) ∧
    (composite plainBase solidOverlay).w = 2 ∧ (composite plainBase solidOverlay).h = 2 ∧
    (composite plainBase solidOverlay).At 0 0 = ⟨200, 0, 0, 255⟩ ∧
    (composite plainBase solidOverlay).At 1 0 = ⟨200, 1, 0, 255⟩ ∧
    (composite plainBase solidOverlay).At 0 1 = ⟨200, 0, 1, 255⟩ ∧
    (composite plainBase solidOverlay).At 1 1 = ⟨200, 1, 1, 255⟩ := by
  have hall : ∀ x y : Nat, x < plainBase.w → y < plainBase.h →
      (plainBase.At x y).RGBA.a = 0xffff ∧ (solidOverlay.At x y).RGBA.a = 0xffff ∧
      ¬ ((rgbaModel (plainBase.At x y)).R = 0 ∧ (rgbaModel (plainBase.At x y)).G = 0 ∧
        (rgbaModel (plainBase.At x y)).B = 254) ∧
      ¬ ((rgbaModel (solidOverlay.At x y)).R = 0 ∧ (rgbaModel (solidOverlay.At x y)).G = 0 ∧
        (rgbaModel (solidOverlay.At x y)).B = 254) := by
    intro x y hx hy
    have hx2 : x < 2 := hx
    have hy2 : y < 2 := hy
    interval_cases x <;> interval_cases y <;> decide
  have h := (overlay_at_max_alpha_obscures_base plainBase solidOverlay).2 rfl rfl hall
  refine ⟨⟨rfl, rfl⟩, h.1, h.2.1, ?_, ?_, ?_, ?_⟩
  · exact (h.2.2 0 0 (by decide) (by decide)).trans (by decide)
  · exact (h.2.2 1 0 (by decide) (by decide)).trans (by decide)
  · exact (h.2.2 0 1 (by decide) (by decide)).trans (by decide)
  · exact (h.2.2 1 1 (by decide) (by decide)).trans (by decide)

/-- C4: Transparent overlay is the identity.  For a fully opaque base without a
pixel of RGB `(0,0,254)` and an overlay of the same dimensions whose pixels all
have alpha 0, the final composite has the base's dimensions and the base's
R, G, B, A at every coordinate. -/
theorem transparent_overlay_identity (baseImg overlayImg : Image)
    (hw : overlayImg.w = baseImg.w) (hh : overlayImg.h = baseImg.h)
    (hbase : ∀ x y : Nat, x < baseImg.w → y < baseImg.h →
      (baseImg.At x y).RGBA.a = 0xffff ∧
      ¬ ((rgbaModel (baseImg.At x y)).R = 0 ∧ (rgbaModel (baseImg.At x y)).G = 0 ∧
        (rgbaModel (baseImg.At x y)).B = 254))
    (hover : ∀ x y : Nat, x < overlayImg.w → y < overlayImg.h →
      (overlayImg.At x y).RGBA.a = 0) :
    (composite baseImg overlayImg).w = baseImg.w ∧
    (composite baseImg overlayImg).h = baseImg.h ∧
    ∀ x y : Nat, x < baseImg.w → y < baseImg.h →
      (composite baseImg overlayImg).At x y = rgbaModel (baseImg.At x y) := by
  refine ⟨composite_w _ _, composite_h _ _, ?_⟩
  intro x y hx hy
  have hxo : x < overlayImg.w := hw ▸ hx
  have hyo : y < overlayImg.h := hh ▸ hy
  obtain ⟨ha, hk⟩ := hbase x y hx hy
  have hp : (blend baseImg overlayImg).pix x y = rgbaModel (baseImg.At x y) := by
    rw [blend_pix _ _ _ _ hx hy, if_pos ⟨hxo, hyo⟩,
      drawOverAt_transparent _ _ _ _ (hover x y hxo hyo), drawOverAt_maxAlpha _ _ _ _ ha]
  rw [composite_At _ _ _ _ hx hy, hp, if_neg hk]

/-- Witness of C4: a 2x2 opaque base with a 2x2 transparent overlay. -/
theorem transparent_overlay_identity_witness :
    (clearOverlay.w = plainBase.w ∧ clearOverlay.h = plainBase.h) ∧
    (composite plainBase clearOverlay).w = 2 ∧ (composite plainBase clearOverlay).h = 2 ∧
    (composite plainBase clearOverlay).At 0 0 = ⟨1, 1, 7, 255⟩ ∧
    (composite plainBase clearOverlay).At 1 0 = ⟨2, 1, 7, 255⟩ ∧
    (composite plainBase clearOverlay).At 0 1 = ⟨1, 2, 7, 255⟩ ∧
    (composite plainBase clearOverlay).At 1 1 = ⟨2, 2, 7, 255⟩ := by
  have hbase : ∀ x y : Nat, x < plainBase.w → y < plainBase.h →
      (plainBase.At x y).RGBA.a = 0xffff ∧
      ¬ ((rgbaModel (plainBase.At x y)).R = 0 ∧ (rgbaModel (plainBase.At x y)).G = 0 ∧
        (rgbaModel (plainBase.At x y)).B = 254) := by
    intro x y hx hy
    have hx2 : x < 2 := hx
    have hy2 : y < 2 := hy
    interval_cases x <;> interval_cases y <;> decide
  have hover : ∀ x y : Nat, x < clearOverlay.w → y < clearOverlay.h →
      (clearOverlay.At x y).RGBA.a = 0 := by
    intro x y _ _
    show (0 : Byte).val ||| ((0 : Byte).val <<< 8) = 0
    decide
  have h := transparent_overlay_identity plainBase clearOverlay rfl rfl hbase hover
  refine ⟨⟨rfl, rfl⟩, h.1, h.2.1, ?_, ?_, ?_, ?_⟩
  · exact (h.2.2 0 0 (by decide) (by decide)).trans (by decide)
  · exact (h.2.2 1 0 (by decide) (by decide)).trans (by decide)
  · exact (h.2.2 0 1 (by decide) (by decide)).trans (by decide)
  · exact (h.2.2 1 1 (by decide) (by decide)).trans (by decide)

/-! # The claims about the cache key -/

/-- C5: Cache key shape.  For every pair of strings, empty ones included,
`getRedisKey` returns without a panic: the base64 text of the digest has 44
characters, so `encoded[:16]` is in range.  The key has exactly 16 characters,
it is the first 16 characters of the standard base64 encoding of the SHA-256
of `base ++ ":" ++ overlay`, and the same pair always yields the same key. -/
theorem getRedisKey_shape (baseURL overlayStr : GoString) :
    ∃ key : GoString,
      getRedisKey baseURL overlayStr = some key ∧
      (EncodeToString (sha256Sum (baseURL ++ lit ":" ++ overlayStr))).length = 44 ∧
      key.length = 16 ∧
      key = (EncodeToString (sha256Sum (baseURL ++ lit ":" ++ overlayStr))).take 16 ∧
      ∀ baseURL2 overlayStr2 : GoString, baseURL2 = baseURL → overlayStr2 = overlayStr →
        getRedisKey baseURL2 overlayStr2 = some key := by
  refine ⟨_, getRedisKey_eq baseURL overlayStr, encoded_length _, ?_, rfl, ?_⟩
  · rw [List.length_take, encoded_length]
    rfl
  · intro b2 o2 hb ho
    rw [hb, ho, getRedisKey_eq]

/-- Counterexample to C6 as stated: the distinct pairs of non-empty strings
`("a:b", "c")` and `("a", "b:c")` feed the same bytes `a:b:c` to the hash, and
so get the same key by construction. -/
theorem redisKeyInput_collision :
    (lit "a:b" ≠ [] ∧ lit "c" ≠ [] ∧ lit "a" ≠ [] ∧ lit "b:c" ≠ []) ∧
    (lit "a:b", lit "c") ≠ (lit "a", lit "b:c") ∧
    redisKeyInput (lit "a:b") (lit "c") = redisKeyInput (lit "a") (lit "b:c") ∧
    getRedisKey (lit "a:b") (lit "c") = getRedisKey (lit "a") (lit "b:c") := by
  refine ⟨by decide, by decide, by decide, ?_⟩
  have h : redisKeyInput (lit "a:b") (lit "c") = redisKeyInput (lit "a") (lit "b:c") := by decide
  rw [getRedisKey, getRedisKey, h]

/-- C6 (amended): for two distinct pairs of strings, the byte strings
`base ++ ":" ++ overlay` that `getRedisKey` feeds to the hash are equal exactly
when one base is the other base followed by `:` and some `t`, while the other
overlay is `t` followed by `:` and the first overlay.  Hence they differ
whenever neither overlay contains `:`, whenever neither base contains `:`, and
whenever the bases have the same length. -/
theorem redisKeyInput_separates (base1 overlay1 base2 overlay2 : GoString)
    (hne : (base1, overlay1) ≠ (base2, overlay2)) :
    (redisKeyInput base1 overlay1 = redisKeyInput base2 overlay2 ↔
      ((∃ t : GoString, base2 = base1 ++ lit ":" ++ t ∧ overlay1 = t ++ lit ":" ++ overlay2) ∨
       (∃ t : GoString, base1 = base2 ++ lit ":" ++ t ∧ overlay2 = t ++ lit ":" ++ overlay1))) ∧
    (((58 : Byte) ∉ overlay1 ∧ (58 : Byte) ∉ overlay2) →
      redisKeyInput base1 overlay1 ≠ redisKeyInput base2 overlay2) ∧
    (((58 : Byte) ∉ base1 ∧ (58 : Byte) ∉ base2) →
      redisKeyInput base1 overlay1 ≠ redisKeyInput base2 overlay2) ∧
    (base1.length = base2.length →
      redisKeyInput base1 overlay1 ≠ redisKeyInput base2 overlay2) := by
  have hiff : redisKeyInput base1 overlay1 = redisKeyInput base2 overlay2 ↔
      ((∃ t : GoString, base2 = base1 ++ lit ":" ++ t ∧ overlay1 = t ++ lit ":" ++ overlay2) ∨
       (∃ t : GoString, base1 = base2 ++ lit ":" ++ t ∧ overlay2 = t ++ lit ":" ++ overlay1)) := by
    simp only [redisKeyInput, lit_colon, List.append_assoc, List.singleton_append]
    constructor
    · intro h
      rcases joined_eq_cases _ _ _ _ h with ⟨e1, e2⟩ | h | h
      · exact absurd (by rw [e1, e2]) hne
      · exact Or.inl h
      · exact Or.inr h
    · rintro (⟨t, e1, e2⟩ | ⟨t, e1, e2⟩)
      · rw [e1, e2]
        simp
      · rw [e1, e2]
        simp
  refine ⟨hiff, ?_, ?_, ?_⟩
  · rintro ⟨h1, h2⟩ h
    rcases hiff.mp h with ⟨t, _, e⟩ | ⟨t, _, e⟩
    · apply h1
      rw [e, lit_colon]
      simp
    · apply h2
      rw [e, lit_colon]
      simp
  · rintro ⟨h1, h2⟩ h
    rcases hiff.mp h with ⟨t, e, _⟩ | ⟨t, e, _⟩
    · apply h2
      rw [e, lit_colon]
      simp
    · apply h1
      rw [e, lit_colon]
      simp
  · intro hlen h
    rcases hiff.mp h with ⟨t, e, _⟩ | ⟨t, e, _⟩
    · rw [e, lit_colon] at hlen
      simp at hlen
    · rw [e, lit_colon] at hlen
      simp at hlen

/-- Witness of C6 (amended): two URLs of different length and an overlay
without `:`. -/
theorem redisKeyInput_separates_witness :
    (lit "http://a/x.png", lit "AAAA") ≠ (lit "https://b/y.png", lit "AAAA") ∧
    ((58 : Byte) ∉ lit "AAAA" ∧ (58 : Byte) ∉ lit "AAAA") ∧
    redisKeyInput (lit "http://a/x.png") (lit "AAAA") ≠
      redisKeyInput (lit "https://b/y.png") (lit "AAAA") :=
  ⟨by decide, by decide,
    (redisKeyInput_separates (lit "http://a/x.png") (lit "AAAA") (lit "https://b/y.png")
      (lit "AAAA") (by decide)).2.1 (by decide)⟩

/-! # The claims about the request handler -/

/-- Counterexample to C7 as stated: a `POST` whose form parses and lacks the
`overlay` field, in a process without `REDIS_URL`.  `redis.ParseURL` fails,
its error is dropped, and `redis.NewClient(nil)` at line 38 panics before the
check of line 40: no 400 is written. -/
theorem validation_panics_without_redis_url :
    (noOverlayRequest.Method = lit "POST" ∧
      noOverlayRequest.ParseForm = some [(lit "base", lit "https://example.org/base.png")] ∧
      FormValue [(lit "base", lit "https://example.org/base.png")] (lit "overlay") = []) ∧
    redisOptions unsetEnv = none ∧
    Handler unsetEnv (sampleWorld 200 (lit "{}")) [] noOverlayRequest = none := by
  exact ⟨⟨rfl, rfl, by decide⟩, rfl, rfl⟩

/-- C7 (amended): Validation comes first once the Redis client is built.  In a
process whose `REDIS_URL` parses, so that `redis.NewClient` at line 38 returns
a client, for every `POST` request whose form parses and in which the `base`
field or the `overlay` field is missing or empty, `Handler` responds with
status 400 and does nothing to its collaborators: no cache lookup, no image
fetch, no upload, no cache write. -/
theorem validation_comes_first (env : Env) (world : World) (store : Store) (r : Request)
    (form : List (GoString × GoString)) (redisC : Client)
    (hc : NewClient (redisOptions env) = some redisC)
    (hm : r.Method = lit "POST") (hf : r.ParseForm = some form)
    (he : (∀ p ∈ form, p.1 ≠ lit "base") ∨ FormValue form (lit "base") = [] ∨
      (∀ p ∈ form, p.1 ≠ lit "overlay") ∨ FormValue form (lit "overlay") = []) :
    ∃ res : Result, Handler env world store r = some res ∧ res.resp.status = 400 ∧
      res.trace = [] ∧ res.store = store := by
  have he2 : FormValue form (lit "base") = [] ∨ FormValue form (lit "overlay") = [] := by
    rcases he with h | h | h | h
    · exact Or.inl (FormValue_missing _ _ h)
    · exact Or.inl h
    · exact Or.inr (FormValue_missing _ _ h)
    · exact Or.inr h
  refine ⟨⟨Error (lit "Missing base URL or overlay image") 400, [], store⟩, ?_, rfl, rfl, rfl⟩
  simp only [Handler, hm, hf, hc, ne_eq, not_true_eq_false, if_false, he2, if_true]

/-- Witness of C7 (amended): a request without the `overlay` field, in a process
whose `REDIS_URL` parses. -/
theorem validation_comes_first_witness :
    (NewClient (redisOptions sampleEnv) = some sampleClient ∧
      noOverlayRequest.Method = lit "POST" ∧
      noOverlayRequest.ParseForm = some [(lit "base", lit "https://example.org/base.png")] ∧
      ∀ p ∈ [(lit "base", lit "https://example.org/base.png")], p.1 ≠ lit "overlay") ∧
    ∃ res : Result,
      Handler sampleEnv (sampleWorld 200 (lit "{}")) [] noOverlayRequest = some res ∧
      res.resp.status = 400 ∧ res.trace = [] ∧ res.store = [] :=
  ⟨⟨rfl, rfl, rfl, by decide⟩,
    validation_comes_first sampleEnv (sampleWorld 200 (lit "{}")) [] noOverlayRequest
      [(lit "base", lit "https://example.org/base.png")] sampleClient rfl rfl rfl
      (Or.inr (Or.inr (Or.inl (by decide))))⟩

/-- C8: Cache hit short-circuits.  For every valid request (`POST`, a form that
parses, both fields non-empty) the key is computed, and when the cache `GET`
under it, on the client of line 38, returns no error and a non-empty value
`v`, `Handler` responds with status 200, content type `application/json` and
body `v`, having done nothing but that `GET`: no fetch, no overlay decode, no
upload, no cache write.  When the `GET` returns an error or an empty value,
the request goes on to fetch the base image. -/
theorem cache_hit_short_circuits (env : Env) (world : World) (store : Store) (r : Request)
    (form : List (GoString × GoString))
    (hm : r.Method = lit "POST") (hf : r.ParseForm = some form)
    (hb : FormValue form (lit "base") ≠ []) (ho : FormValue form (lit "overlay") ≠ []) :
    ∃ key, getRedisKey (FormValue form (lit "base")) (FormValue form (lit "overlay")) = some key ∧
      ∀ redisC, NewClient (redisOptions env) = some redisC →
        (∀ v, Get redisC world store key = ⟨none, v⟩ → v ≠ [] →
          Handler env world store r =
            some ⟨⟨200, [(lit "Content-Type", lit "application/json")], v⟩,
              [Event.redisGet key], store⟩) ∧
        (((Get redisC world store key).Err ≠ none ∨ (Get redisC world store key).Val = []) →
          ∃ res rest, Handler env world store r = some res ∧
            res.trace =
              Event.redisGet key :: Event.fetchImage (FormValue form (lit "base")) :: rest) := by
  refine ⟨_, getRedisKey_eq _ _, ?_⟩
  intro redisC hc
  obtain ⟨key, hkey, hH⟩ := Handler_valid env world store r form redisC hc hm hf hb ho
  have hk := Option.some.inj ((getRedisKey_eq _ _).symm.trans hkey)
  rw [hk]
  refine ⟨?_, ?_⟩
  · intro v hv hne
    rw [hH, hv]
    simp only [hne, ne_eq, not_false_eq_true, and_self, if_true, writeJSON]
  · intro hmiss
    have hn : ¬ ((Get redisC world store key).Err = none ∧
        (Get redisC world store key).Val ≠ []) := by
      rintro ⟨h1, h2⟩
      rcases hmiss with h | h
      · exact h h1
      · exact h2 h
    rw [hH, if_neg hn]
    obtain ⟨res, hres, hcase⟩ := handleMiss_cases redisC world store
      (FormValue form (lit "base")) (FormValue form (lit "overlay")) [Event.redisGet key]
    have hrest : ∃ rest, res.trace =
        Event.redisGet key :: Event.fetchImage (FormValue form (lit "base")) :: rest := by
      rcases hcase with ⟨_, _, h | h⟩ | ⟨png, h, _⟩ | ⟨png, body, k, _, _, h, _⟩
      · exact ⟨[], by rw [h]; rfl⟩
      · exact ⟨_, by rw [h]; rfl⟩
      · exact ⟨_, by rw [h]; rfl⟩
      · exact ⟨_, by rw [h]; rfl⟩
    obtain ⟨rest, hrest⟩ := hrest
    exact ⟨res, rest, hres, hrest⟩

/-- Witness of C8: the key of the sample request holds `cached`. -/
theorem cache_hit_short_circuits_witness :
    (sampleRequest.Method = lit "POST" ∧
      sampleRequest.ParseForm =
        some [(lit "base", lit "https://example.org/base.png"), (lit "overlay", lit "AAAA")]) ∧
    Handler sampleEnv (sampleWorld 200 (lit "{}")) [(lit "xqtDvxZVC8ZurtEW", lit "cached")]
        sampleRequest =
      some ⟨⟨200, [(lit "Content-Type", lit "application/json")], lit "cached"⟩,
        [Event.redisGet (lit "xqtDvxZVC8ZurtEW")], [(lit "xqtDvxZVC8ZurtEW", lit "cached")]⟩ := by
  obtain ⟨key, hkey, hall⟩ := cache_hit_short_circuits sampleEnv (sampleWorld 200 (lit "{}"))
    [(lit "xqtDvxZVC8ZurtEW", lit "cached")] sampleRequest
    [(lit "base", lit "https://example.org/base.png"), (lit "overlay", lit "AAAA")]
    rfl rfl (by decide) (by decide)
  obtain ⟨hhit, _⟩ := hall sampleClient rfl
  have hk : getRedisKey (lit "https://example.org/base.png") (lit "AAAA")
      = some (lit "xqtDvxZVC8ZurtEW") := rfl
  have hk2 : key = lit "xqtDvxZVC8ZurtEW" := by
    have h3 : FormValue [(lit "base", lit "https://example.org/base.png"),
        (lit "overlay", lit "AAAA")] (lit "base") = lit "https://example.org/base.png" := by decide
    have h4 : FormValue [(lit "base", lit "https://example.org/base.png"),
        (lit "overlay", lit "AAAA")] (lit "overlay") = lit "AAAA" := by decide
    rw [h3, h4, hk] at hkey
    exact (Option.some.inj hkey).symm
  subst hk2
  exact ⟨⟨rfl, rfl⟩, hhit (lit "cached") (by decide) (by decide)⟩

/-- Counterexample to C9 as stated: MineSkin answers 200 with an empty body, the
first request ends in a successful upload and a successful `SET`, and the
second identical request, handled against the resulting keyspace with a
working `GET`, fetches and uploads again. -/
theorem empty_answer_is_uploaded_again :
    Handler sampleEnv (sampleWorld 200 []) [] sampleRequest =
      some ⟨writeJSON 200 [],
        [Event.redisGet (lit "xqtDvxZVC8ZurtEW"),
         Event.fetchImage (lit "https://example.org/base.png"),
         Event.base64ToPNG (lit "AAAA"),
         Event.upload (lit "skin.png"),
         Event.redisSet (lit "xqtDvxZVC8ZurtEW") []],
        [(lit "xqtDvxZVC8ZurtEW", [])]⟩ ∧
    (sampleWorld 200 []).getErr = none ∧
    Handler sampleEnv (sampleWorld 200 []) [(lit "xqtDvxZVC8ZurtEW", [])] sampleRequest =
      some ⟨writeJSON 200 [],
        [Event.redisGet (lit "xqtDvxZVC8ZurtEW"),
         Event.fetchImage (lit "https://example.org/base.png"),
         Event.base64ToPNG (lit "AAAA"),
         Event.upload (lit "skin.png"),
         Event.redisSet (lit "xqtDvxZVC8ZurtEW") []],
        [(lit "xqtDvxZVC8ZurtEW", []), (lit "xqtDvxZVC8ZurtEW", [])]⟩ := by
  exact ⟨rfl, rfl, rfl⟩

/-- C9 (amended): Second identical request is served from cache.  With the
cache a key-value map that keeps what is `SET` and answers `GET`, for every
request whose first handling ends in a successful upload (status 200 after an
upload call) with a non-empty response body, a second request with the same
base and overlay, handled against the resulting keyspace, responds with status
200 and the body the first request returned, and does nothing but the cache
`GET`: no upload call and no base-image fetch. -/
theorem second_request_served_from_cache (env : Env) (world1 world2 : World) (store : Store)
    (r : Request) (res1 : Result) (h1 : Handler env world1 store r = some res1)
    (hs : res1.resp.status = 200) (hup : ∃ png, Event.upload png ∈ res1.trace)
    (hbody : res1.resp.body ≠ []) (hget : world2.getErr = none) :
    ∃ res2 key, Handler env world2 res1.store r = some res2 ∧
      res2.resp.status = 200 ∧ res2.resp.body = res1.resp.body ∧
      res2.trace = [Event.redisGet key] ∧
      (∀ png, Event.upload png ∉ res2.trace) ∧ (∀ url, Event.fetchImage url ∉ res2.trace) := by
  obtain ⟨png, hup⟩ := hup
  by_cases hv : r.Method = lit "POST" ∧ ∃ form, r.ParseForm = some form ∧
      FormValue form (lit "base") ≠ [] ∧ FormValue form (lit "overlay") ≠ []
  · obtain ⟨hm, form, hf, hb, ho⟩ := hv
    obtain ⟨redisC, hc⟩ := Handler_some_client env world1 store r form res1 hm hf h1
    obtain ⟨key, hkey, hH⟩ := Handler_valid env world1 store r form redisC hc hm hf hb ho
    obtain ⟨key2, hkey2, hH2⟩ :=
      Handler_valid env world2 res1.store r form redisC hc hm hf hb ho
    have hkk : key2 = key := Option.some.inj (hkey2.symm.trans hkey)
    subst hkk
    have hstore : res1.store = store.set key2 res1.resp.body := by
      rw [hH] at h1
      split_ifs at h1 with hhit
      · have e := Option.some.inj h1
        rw [← e] at hup
        simp at hup
      · obtain ⟨res, hres, hcase⟩ := handleMiss_cases redisC world1 store
          (FormValue form (lit "base")) (FormValue form (lit "overlay")) [Event.redisGet key2]
        have e : res = res1 := Option.some.inj (hres.symm.trans h1)
        subst e
        rcases hcase with ⟨h, _⟩ | ⟨_, _, _, h, _⟩ | ⟨_, body, k, _, hk, _, h | h⟩
        · exact absurd hs h
        · rw [hs] at h
          exact absurd h (by decide)
        · rw [hs] at h
          exact absurd h.1 (by decide)
        · have hkk : k = key2 := Option.some.inj (hk.symm.trans hkey)
          rw [h.2, h.1, hkk]
          rfl
    have hG : Get redisC world2 res1.store key2 = ⟨none, res1.resp.body⟩ := by
      rw [hstore]
      exact Get_after_set redisC world2 store key2 _ hget
    rw [hH2, hG]
    simp only [hbody, ne_eq, not_false_eq_true, and_self, if_true]
    refine ⟨_, key2, rfl, rfl, rfl, rfl, ?_, ?_⟩
    · intro p
      simp
    · intro u
      simp
  · obtain ⟨_, ht, _⟩ := Handler_invalid env world1 store r hv res1 h1
    rw [ht] at hup
    simp at hup

/-- Witness of C9 (amended): MineSkin answers `{}`; the second request does not
even need a working MineSkin. -/
theorem second_request_served_from_cache_witness :
    ∃ res1, Handler sampleEnv (sampleWorld 200 (lit "{}")) [] sampleRequest = some res1 ∧
      res1.resp.status = 200 ∧ res1.resp.body = lit "{}" ∧
      Event.upload (lit "skin.png") ∈ res1.trace ∧
      ∃ res2 key, Handler sampleEnv (sampleWorld 500 []) res1.store sampleRequest = some res2 ∧
        res2.resp.status = 200 ∧ res2.resp.body = res1.resp.body ∧
        res2.trace = [Event.redisGet key] ∧
        (∀ png, Event.upload png ∉ res2.trace) ∧ (∀ url, Event.fetchImage url ∉ res2.trace) :=
  ⟨_, sampleRequest_first, rfl, rfl, by decide,
    second_request_served_from_cache sampleEnv (sampleWorld 200 (lit "{}")) (sampleWorld 500 []) []
      sampleRequest _ sampleRequest_first rfl ⟨lit "skin.png", by decide⟩ (by decide) rfl⟩

/-- Counterexample to C10 as stated: MineSkin answers 403 with body `denied`;
the response body is `Failed to upload skin to MineSkin: denied` and a newline,
not `denied`. -/
theorem remote_body_is_wrapped :
    (sampleWorld 403 (lit "denied")).Do (lit "skin.png") = .ok ⟨403, .ok (lit "denied")⟩ ∧
    ∃ res, Handler sampleEnv (sampleWorld 403 (lit "denied")) [] sampleRequest = some res ∧
      Event.upload (lit "skin.png") ∈ res.trace ∧
      res.resp.status = 500 ∧
      res.resp.body = lit "Failed to upload skin to MineSkin: denied\n" ∧
      res.resp.body ≠ lit "denied" := by
  refine ⟨rfl, _, sampleRequest_rejected, ?_, rfl, ?_, ?_⟩
  · decide
  · decide
  · decide

/-- C10 (amended): Remote rejection is forwarded inside the error message.  For
every request that reaches the upload step and receives from the remote
service a status other than 200 and a body `b`, `Handler` responds with status
500 and the body `Failed to upload skin to MineSkin: ` followed by `b` and a
newline, and writes nothing to the cache.  The handler does respond: it
returns a result whenever the client of line 38 is built, which an upload
presupposes. -/
theorem remote_rejection_forwarded (env : Env) (world : World) (store : Store) (r : Request)
    (png : GoString) (code : Nat) (b : GoString)
    (hdo : world.Do png = .ok ⟨code, .ok b⟩) (hcode : code ≠ 200) :
    (∀ res, Handler env world store r = some res → Event.upload png ∈ res.trace →
      res.resp.status = 500 ∧
      res.resp.body = lit "Failed to upload skin to MineSkin: " ++ b ++ lit "\n" ∧
      res.store = store ∧ ∀ k v, Event.redisSet k v ∉ res.trace) ∧
    (∀ redisC, NewClient (redisOptions env) = some redisC →
      ∃ res, Handler env world store r = some res) := by
  refine ⟨?_, ?_⟩
  · intro res0 hres0 hup
    by_cases hv : r.Method = lit "POST" ∧ ∃ form, r.ParseForm = some form ∧
        FormValue form (lit "base") ≠ [] ∧ FormValue form (lit "overlay") ≠ []
    · obtain ⟨hm, form, hf, hb, ho⟩ := hv
      obtain ⟨redisC, hc⟩ := Handler_some_client env world store r form res0 hm hf hres0
      obtain ⟨key, hkey, hH⟩ := Handler_valid env world store r form redisC hc hm hf hb ho
      rw [hH] at hres0
      split_ifs at hres0 with hhit
      · rw [← Option.some.inj hres0] at hup
        simp at hup
      · obtain ⟨res, hres, hcase⟩ := handleMiss_cases redisC world store
          (FormValue form (lit "base")) (FormValue form (lit "overlay")) [Event.redisGet key]
        have e : res = res0 := Option.some.inj (hres.symm.trans hres0)
        subst e
        rcases hcase with ⟨_, _, h | h⟩ | ⟨p, ht, hst, hs, hall⟩ | ⟨p, body, k, hd, _, ht, _⟩
        · rw [h] at hup
          simp at hup
        · rw [h] at hup
          simp at hup
        · rw [ht] at hup
          have hp : png = p := by simpa using hup
          subst hp
          obtain ⟨_, hresp⟩ := hall code b hdo
          refine ⟨hs, ?_, hst, ?_⟩
          · rw [hresp]
            rfl
          · intro k v hmem
            rw [ht] at hmem
            simp at hmem
        · rw [ht] at hup
          have hp : png = p := by simpa using hup
          subst hp
          rw [hdo] at hd
          injection hd with hd
          injection hd with hc2 _
          exact absurd hc2 hcode
    · obtain ⟨_, ht, _⟩ := Handler_invalid env world store r hv res0 hres0
      rw [ht] at hup
      simp at hup
  · intro redisC hc
    by_cases hv : r.Method = lit "POST" ∧ ∃ form, r.ParseForm = some form ∧
        FormValue form (lit "base") ≠ [] ∧ FormValue form (lit "overlay") ≠ []
    · obtain ⟨hm, form, hf, hb, ho⟩ := hv
      obtain ⟨key, hkey, hH⟩ := Handler_valid env world store r form redisC hc hm hf hb ho
      rw [hH]
      split_ifs with hhit
      · exact ⟨_, rfl⟩
      · obtain ⟨res, hres, _⟩ := handleMiss_cases redisC world store
          (FormValue form (lit "base")) (FormValue form (lit "overlay")) [Event.redisGet key]
        exact ⟨res, hres⟩
    · exact Handler_invalid_total env world store r redisC hc hv

/-- Witness of C10 (amended): MineSkin answers 403 with body `denied`. -/
theorem remote_rejection_forwarded_witness :
    ((sampleWorld 403 (lit "denied")).Do (lit "skin.png") = .ok ⟨403, .ok (lit "denied")⟩ ∧
      403 ≠ 200) ∧
    ∃ res, Handler sampleEnv (sampleWorld 403 (lit "denied")) [] sampleRequest = some res ∧
      Event.upload (lit "skin.png") ∈ res.trace ∧
      res.resp.status = 500 ∧
      res.resp.body = lit "Failed to upload skin to MineSkin: " ++ lit "denied" ++ lit "\n" ∧
      res.store = [] ∧ ∀ k v, Event.redisSet k v ∉ res.trace := by
  have h := remote_rejection_forwarded sampleEnv (sampleWorld 403 (lit "denied")) []
    sampleRequest (lit "skin.png") 403 (lit "denied") rfl (by decide)
  obtain ⟨res, hres⟩ := h.2 sampleClient rfl
  have hup : Event.upload (lit "skin.png") ∈ res.trace := by
    have e : res = _ := Option.some.inj (hres.symm.trans sampleRequest_rejected)
    rw [e]
    decide
  exact ⟨⟨rfl, by decide⟩, res, hres, hup, h.1 res hres hup⟩
end MineskinOverlay
